import Mathlib

/-!
# CASM Monte Carlo: completion checking, enumeration, settings and kinetics

A shallow embedding of

* `CASM::Monte2::CompletionCheck` (`src/casm/monte2/checks/CompletionCheck.cc`),
* `CASM::Monte::MonteCarloEnum` (`src/casm/monte_carlo/MonteCarloEnum.cc`,
  `include/casm/monte_carlo/MonteCarloEnum.hh`),
* the Metropolis decision of `CASM::Monte::GrandCanonical`
  (`include/casm/monte_carlo/grand_canonical/GrandCanonical.hh`),
* `CASM::Monte::GrandCanonicalSettings`
  (`src/casm/monte_carlo/grand_canonical/GrandCanonicalSettings.cc`),
* `CASM::Monte::CovEvaluator` (`src/casm/monte_carlo/MonteIO.cc`),
* `CASM::Monte::CanonicalSettings::samplers`
  (`include/casm/monte_carlo/canonical/CanonicalSettings_impl.hh`),
* `CASM::ConfigMapper::strict` (`include/casm/clex/ConfigMapping.hh`),
* `CASM::Kinetics::make_attachable` and `DiffTransConfiguration`
  (`src/casm/kinetics/DiffTransConfiguration.cc`),
* `CASM::sym::copy_apply` and `apply` on a `UnitCellCoord`
  (`src/casm/symmetry/SymTools.cc`),
* `CASM::MakeSubOrbitGenerators` (`include/casm/symmetry/SubOrbits_impl.hh`),

followed by theorems about them.  Member functions become functions on the
object's state; the functions and types they call whose code is declared in
headers that are not part of the sources are taken as parameters.
-/

namespace CASM
namespace Monte2

/-! ## Data model of the completion check -/

/-- The type `CountType`: counts of passes / steps and of samples.  The completion check only
passes counts on to the cutoff, equilibration and convergence functions; it does no
arithmetic on them. -/
abbrev CountType := Nat

/-- Result of `equilibration_check`.  The completion check reads `all_equilibrated` and
`N_samples_for_all_to_equilibrate`; every other member is carried in
`individual_results`. -/
structure EquilibrationCheckResults (EI : Type) where
  all_equilibrated : Bool
  N_samples_for_all_to_equilibrate : CountType
  individual_results : EI
deriving DecidableEq, Repr

/-- Result of `convergence_check`.  The completion check reads `all_converged`; every
other member is carried in `individual_results`. -/
structure ConvergenceCheckResults (CI : Type) where
  all_converged : Bool
  individual_results : CI
deriving DecidableEq, Repr

/-- The struct `CompletionCheckResults`: the three members `CompletionCheck::_check` writes. -/
structure CompletionCheckResults (EI CI : Type) where
  is_complete : Bool
  equilibration_check_results : EquilibrationCheckResults EI
  convergence_check_results : ConvergenceCheckResults CI
deriving DecidableEq, Repr

/-- The struct `CompletionCheckParams`: the cutoff parameters and the container of requested
convergence checks, of which `_check` only uses `size()`. -/
structure CompletionCheckParams (Cutoff Conv : Type) where
  cutoff_params : Cutoff
  convergence_check_params : List Conv
deriving DecidableEq, Repr

/-- The functions and the default constructor that `CompletionCheck.cc` uses and that
are declared outside the sources: the accessors of `SampledData`, the cutoff
predicates, the equilibration and convergence checks (deterministic functions of their
arguments), and the value of `CompletionCheckResults()`. -/
structure Externals (Cutoff Conv Sampled Samplers Time EI CI : Type) where
  get_count : Sampled → CountType
  get_time : Sampled → Time
  get_n_samples : Sampled → CountType
  samplers : Sampled → Samplers
  all_minimums_met : Cutoff → CountType → Time → CountType → Bool
  any_maximum_met : Cutoff → CountType → Time → CountType → Bool
  equilibration_check : List Conv → Samplers → Bool → EquilibrationCheckResults EI
  convergence_check : List Conv → CountType → Samplers → ConvergenceCheckResults CI
  default_results : CompletionCheckResults EI CI

/-- The `CompletionCheck` object: `m_params` and `m_results`. -/
structure CompletionCheck (Cutoff Conv EI CI : Type) where
  m_params : CompletionCheckParams Cutoff Conv
  m_results : CompletionCheckResults EI CI
deriving DecidableEq, Repr

section CompletionCheckDefs

variable {Cutoff Conv Sampled Samplers Time EI CI : Type}

/-- The constructor
`CompletionCheck::CompletionCheck(CompletionCheckParams params) : m_params(params) {}`.
It has no failure path: it stores `params` and default-constructs
`m_results`.  It is written as a fallible function so that rejection can be stated. -/
def CompletionCheck.construct (X : Externals Cutoff Conv Sampled Samplers Time EI CI)
    (params : CompletionCheckParams Cutoff Conv) :
    Except String (CompletionCheck Cutoff Conv EI CI) :=
  Except.ok { m_params := params, m_results := X.default_results }

/-- The tail of `_check`: "if any maximum met, stop". -/
def CompletionCheck.check_maximum (X : Externals Cutoff Conv Sampled Samplers Time EI CI)
    (cutoff_params : Cutoff) (count : CountType) (time : Time) (N_samples : CountType)
    (m_results : CompletionCheckResults EI CI) : CompletionCheckResults EI CI :=
  if X.any_maximum_met cutoff_params count time N_samples then
    { m_results with is_complete := true }
  else
    m_results

/-- The member function `void CompletionCheck::_check(SampledData const &sampled_data)`:
check for equilibration and convergence, then set `m_results`. -/
def CompletionCheck._check (X : Externals Cutoff Conv Sampled Samplers Time EI CI)
    (self : CompletionCheck Cutoff Conv EI CI) (sampled_data : Sampled) :
    CompletionCheck Cutoff Conv EI CI :=
  -- m_results = CompletionCheckResults();
  let m_results := X.default_results
  let count := X.get_count sampled_data
  let time := X.get_time sampled_data
  let N_samples := X.get_n_samples sampled_data
  -- if minimums not met -> continue
  if !X.all_minimums_met self.m_params.cutoff_params count time N_samples then
    { self with m_results := { m_results with is_complete := false } }
  -- if auto convergence mode:
  else if self.m_params.convergence_check_params.length != 0 then
    -- check for equilibration
    let check_all := false
    let m_results := { m_results with
      equilibration_check_results :=
        X.equilibration_check self.m_params.convergence_check_params
          (X.samplers sampled_data) check_all }
    -- if all requested to converge are equilibrated, then check convergence
    let m_results :=
      if m_results.equilibration_check_results.all_equilibrated then
        { m_results with
          convergence_check_results :=
            X.convergence_check self.m_params.convergence_check_params
              m_results.equilibration_check_results.N_samples_for_all_to_equilibrate
              (X.samplers sampled_data) }
      else
        m_results
    -- if all requested to converge are converged, then complete
    if m_results.convergence_check_results.all_converged then
      { self with m_results := { m_results with is_complete := true } }
    else
      -- if any maximum met, stop
      { self with m_results :=
          (CompletionCheck.check_maximum X self.m_params.cutoff_params count time N_samples
            m_results) }
  else
    -- if any maximum met, stop
    { self with m_results :=
        (CompletionCheck.check_maximum X self.m_params.cutoff_params count time N_samples
          m_results) }

end CompletionCheckDefs

/-! ### Cutoff parameters -/

/-- Modelled from the spec: the declaration of `CutoffCheckParams`
(`casm/monte2/checks/CutoffCheck.hh`) is not among the sources.  The spec's data model
gives it a minimum and a maximum pass count, simulated time and sample count, each of
which may be left unconfigured. -/
structure CutoffCheckParams where
  min_count : Option CountType
  max_count : Option CountType
  min_time : Option ℚ
  max_time : Option ℚ
  min_sample : Option CountType
  max_sample : Option CountType
deriving DecidableEq, Repr

/-- Modelled from the spec: `all_minimums_met` (`casm/monte2/checks/CutoffCheck.hh`) is
not among the sources.  A configured minimum is unmet when the current value is below
it; all minimums are met when no configured minimum is unmet. -/
def all_minimums_met (p : CutoffCheckParams) (count : CountType) (time : ℚ)
    (n_samples : CountType) : Bool :=
  (match p.min_count with
    | some m => decide (m ≤ count)
    | none => true) &&
  (match p.min_time with
    | some m => decide (m ≤ time)
    | none => true) &&
  (match p.min_sample with
    | some m => decide (m ≤ n_samples)
    | none => true)

/-- Modelled from the spec: `any_maximum_met` (`casm/monte2/checks/CutoffCheck.hh`) is
not among the sources.  A maximum is met when it is configured and the current value
exceeds it. -/
def any_maximum_met (p : CutoffCheckParams) (count : CountType) (time : ℚ)
    (n_samples : CountType) : Bool :=
  (match p.max_count with
    | some m => decide (m < count)
    | none => false) ||
  (match p.max_time with
    | some m => decide (m < time)
    | none => false) ||
  (match p.max_sample with
    | some m => decide (m < n_samples)
    | none => false)

/-- Modelled from the spec: the invalid configurations of the spec's testable
properties, "cutoffs set so minimums exceed maximums": some configured minimum is
greater than the corresponding configured maximum. -/
def CutoffCheckParams.minimum_exceeds_maximum (p : CutoffCheckParams) : Bool :=
  (match p.min_count, p.max_count with
    | some lo, some hi => decide (hi < lo)
    | _, _ => false) ||
  (match p.min_time, p.max_time with
    | some lo, some hi => decide (hi < lo)
    | _, _ => false) ||
  (match p.min_sample, p.max_sample with
    | some lo, some hi => decide (hi < lo)
    | _, _ => false)

/-! ### A concrete instance

Sampled data reduced to what the completion check consumes, used to evaluate `_check`
on concrete inputs. -/

/-- The state of the samplers as far as the statistical tests of the instance below
look at it: whether the requested quantities have equilibrated and after how many
samples, and whether they have converged. -/
structure SamplerState where
  equilibrated : Bool
  N_equil : CountType
  converged : Bool
deriving DecidableEq, Repr

/-- Sampled data: the samplers together with the current count, time and number of
samples. -/
structure SampledData where
  samplers : SamplerState
  count : CountType
  time : ℚ
  n_samples : CountType
deriving DecidableEq, Repr

/-- An instance of the external functions: the cutoff predicates are those modelled
from the spec, the statistical tests report the state of the samplers, and a
default-constructed `CompletionCheckResults` has every flag `false` and every count
zero. -/
def concreteExternals :
    Externals CutoffCheckParams String SampledData SamplerState ℚ Unit Unit where
  get_count := fun d => d.count
  get_time := fun d => d.time
  get_n_samples := fun d => d.n_samples
  samplers := fun d => d.samplers
  all_minimums_met := all_minimums_met
  any_maximum_met := any_maximum_met
  equilibration_check := fun _ s _ =>
    { all_equilibrated := s.equilibrated
      N_samples_for_all_to_equilibrate := s.N_equil
      individual_results := () }
  convergence_check := fun _ N s =>
    { all_converged := s.converged && decide (s.N_equil ≤ N)
      individual_results := () }
  default_results :=
    { is_complete := false
      equilibration_check_results :=
        { all_equilibrated := false
          N_samples_for_all_to_equilibrate := 0
          individual_results := () }
      convergence_check_results :=
        { all_converged := false
          individual_results := () } }

/-- Cutoffs with every minimum and maximum unconfigured. -/
def noCutoffs : CutoffCheckParams :=
  { min_count := none, max_count := none, min_time := none, max_time := none,
    min_sample := none, max_sample := none }

/-- Cutoffs of the instance: at least five samples, at most one pass. -/
def fiveSamplesOnePass : CutoffCheckParams :=
  { noCutoffs with min_sample := some 5, max_count := some 1 }

/-- Cutoffs of the instance: at least five samples, no maximum. -/
def fiveSamples : CutoffCheckParams :=
  { noCutoffs with min_sample := some 5 }

/-- Cutoffs of the instance whose minimum pass count, 10, exceeds the maximum, 5. -/
def tenToFivePasses : CutoffCheckParams :=
  { noCutoffs with min_count := some 10, max_count := some 5 }

/-- Sampled data of the instance at time zero. -/
def sampledAt (samplers : SamplerState) (count n_samples : CountType) : SampledData :=
  { samplers := samplers, count := count, time := 0, n_samples := n_samples }

/-- A checker with the given parameters and default-constructed results. -/
def concreteCheck (cutoff : CutoffCheckParams) (conv : List String) :
    CompletionCheck CutoffCheckParams String Unit Unit :=
  { m_params := { cutoff_params := cutoff, convergence_check_params := conv }
    m_results := concreteExternals.default_results }

end Monte2

namespace Monte

/-! ## Data model of Monte Carlo enumeration -/

/-- A `double` reported as the score of an `InsertResult`: a number, or
`std::numeric_limits<double>::quiet_NaN()`. -/
inductive Score where
  | nan : Score
  | num (x : ℚ) : Score
deriving DecidableEq, Repr

/-- A `const_iterator` into a container of the hall of fame: the index of an element,
or the container's `end()`. -/
inductive Iterator where
  | elem (i : Nat) : Iterator
  | end_ : Iterator
deriving DecidableEq, Repr

/-- The struct `HallOfFameType::InsertResult`, with the members `MonteCarloEnum::insert` constructs
and reads: `InsertResult(pos, success, score, excluded, excluded_pos)`. -/
structure InsertResult where
  pos : Iterator
  success : Bool
  score : Score
  excluded : Bool
  excluded_pos : Iterator
deriving DecidableEq, Repr

/-- Modelled from the spec: the class `HallOfFame` (`casm/misc/HallOfFame.hh`) is not
among the sources.  Following the spec's data model it holds at most `m_max_size`
(score, configuration) entries, best score first, and a companion set of excluded
configurations that is consulted when `m_check_exclusion` is set.
`insert_calls` and `metric_evaluations` are history variables and no members of the
class: they list, oldest first, the configurations that have been passed to `insert`
and those on which the metric has been evaluated. -/
structure HallOfFame (Config : Type) where
  m_halloffame : List (ℚ × Config)
  m_exclude : List Config
  m_check_exclusion : Bool
  m_max_size : Nat
  insert_calls : List Config
  metric_evaluations : List Config
deriving DecidableEq, Repr

section HallOfFameDefs

variable {Config : Type} [DecidableEq Config]

/-- The iterator at the first position of `l` that satisfies `p`, or `end()`. -/
def find_pos {α : Type} (p : α → Bool) (l : List α) : Iterator :=
  match l.findIdx? p with
  | some i => Iterator.elem i
  | none => Iterator.end_

/-- Modelled from the spec: `HallOfFame::end()` (`casm/misc/HallOfFame.hh`, not among the
sources), the past-the-end position. -/
def HallOfFame.end_ (_h : HallOfFame Config) : Iterator := Iterator.end_

/-- Modelled from the spec: `HallOfFame::size()` (`casm/misc/HallOfFame.hh`, not among
the sources), the number of entries. -/
def HallOfFame.size (h : HallOfFame Config) : Nat := h.m_halloffame.length

/-- Modelled from the spec: `HallOfFame::clear()` (`casm/misc/HallOfFame.hh`, not among
the sources) removes every entry and leaves the excluded set alone. -/
def HallOfFame.clear (h : HallOfFame Config) : HallOfFame Config :=
  { h with m_halloffame := [] }

/-- Modelled from the spec: `HallOfFame::clear_excluded()` (`casm/misc/HallOfFame.hh`,
not among the sources) empties the excluded set. -/
def HallOfFame.clear_excluded (h : HallOfFame Config) : HallOfFame Config :=
  { h with m_exclude := [] }

/-- Modelled from the spec: `HallOfFame::exclude(obj)` (`casm/misc/HallOfFame.hh`, not
among the sources) adds one configuration to the excluded set, which holds no
configuration twice. -/
def HallOfFame.exclude (h : HallOfFame Config) (obj : Config) : HallOfFame Config :=
  { h with m_exclude := if obj ∈ h.m_exclude then h.m_exclude else h.m_exclude ++ [obj] }

/-- Modelled from the spec: `HallOfFame::exclude(begin, end)`
(`casm/misc/HallOfFame.hh`, not among the sources) adds every configuration of a range
to the excluded set. -/
def HallOfFame.exclude_range (h : HallOfFame Config) (range : List Config) :
    HallOfFame Config :=
  range.foldl HallOfFame.exclude h

/-- Insertion of an entry in descending order of score, after the entries whose score
is at least as good. -/
def insert_sorted (score : ℚ) (obj : Config) : List (ℚ × Config) → List (ℚ × Config)
  | [] => [(score, obj)]
  | e :: es =>
    if e.1 < score then (score, obj) :: e :: es else e :: insert_sorted score obj es

/-- Modelled from the spec: `HallOfFame::insert` (`casm/misc/HallOfFame.hh`) is not
among the sources.  Following section 4.5 of the spec: a configuration of the excluded
set is recorded as excluded and not inserted (no score is computed, NaN is reported);
otherwise the score is the metric of the configuration; a configuration that is
already an entry replaces that entry only with a strictly better score; a new
configuration is inserted in sorted order if fewer than `m_max_size` entries exist or
its score exceeds that of the entry at rank `m_max_size`, and the worst entry is
evicted when the capacity is exceeded; otherwise it is not inserted. -/
def HallOfFame.insert (metric : Config → ℚ) (h : HallOfFame Config) (obj : Config) :
    HallOfFame Config × InsertResult :=
  let h := { h with insert_calls := h.insert_calls ++ [obj] }
  if h.m_check_exclusion && decide (obj ∈ h.m_exclude) then
    (h, { pos := h.end_, success := false, score := Score.nan, excluded := true,
          excluded_pos := find_pos (fun c => decide (c = obj)) h.m_exclude })
  else
    let score := metric obj
    let h := { h with metric_evaluations := h.metric_evaluations ++ [obj] }
    match h.m_halloffame.find? (fun e => decide (e.2 = obj)) with
    | some old =>
      if old.1 < score then
        let entries :=
          insert_sorted score obj (h.m_halloffame.filter (fun e => !decide (e.2 = obj)))
        ({ h with m_halloffame := entries },
         { pos := find_pos (fun e => decide (e.2 = obj)) entries, success := true,
           score := Score.num score, excluded := false, excluded_pos := h.end_ })
      else
        (h, { pos := find_pos (fun e => decide (e.2 = obj)) h.m_halloffame,
              success := false, score := Score.num score, excluded := false,
              excluded_pos := h.end_ })
    | none =>
      let competitive : Bool :=
        decide (h.m_halloffame.length < h.m_max_size) ||
          (match h.m_halloffame.get? (h.m_max_size - 1) with
            | some kth => decide (0 < h.m_max_size) && decide (kth.1 < score)
            | none => false)
      if competitive then
        let entries := (insert_sorted score obj h.m_halloffame).take h.m_max_size
        ({ h with m_halloffame := entries },
         { pos := find_pos (fun e => decide (e.2 = obj)) entries, success := true,
           score := Score.num score, excluded := false, excluded_pos := h.end_ })
      else
        (h, { pos := h.end_, success := false, score := Score.num score,
              excluded := false, excluded_pos := h.end_ })

end HallOfFameDefs

/-- The function objects and `Configuration` member functions that `MonteCarloEnum`
calls and whose code is outside the sources: `Configuration::primitive`,
`in_canonical_supercell` and `canonical_form`, the check `*m_enum_check`
(`MonteCarloEnumCheck`, a formatter evaluated as `bool`) and the metric of the hall of
fame (`MonteCarloEnumMetric`, a formatter evaluated as `double`). -/
structure ConfigFunctions (Config : Type) where
  primitive : Config → Config
  in_canonical_supercell : Config → Config
  canonical_form : Config → Config
  enum_check : Config → Bool
  metric : Config → ℚ

/-- The members of `MonteCarloEnum` that `insert`, `_insert` and `reset` use.
`m_halloffame` is the object the `cloneable_ptr` points to; these member functions
dereference it without a null test.  Writes to the `Log` are not modelled. -/
structure MonteCarloEnum (Config : Type) where
  m_debug : Bool
  m_halloffame : HallOfFame Config
  m_check_existence : Bool
  m_insert_canonical : Bool
  m_insert_primitive_only : Bool
  m_save_primitive_only : Bool
deriving DecidableEq, Repr

section MonteCarloEnumDefs

variable {Config : Type} [DecidableEq Config]

/-- Accessor `bool debug() const`, returning `m_debug`. -/
def MonteCarloEnum.debug (self : MonteCarloEnum Config) : Bool := self.m_debug

/-- Accessor `bool check_existence() const`, returning `m_check_existence`. -/
def MonteCarloEnum.check_existence (self : MonteCarloEnum Config) : Bool :=
  self.m_check_existence

/-- Accessor `bool insert_canonical() const`, returning `m_insert_canonical`. -/
def MonteCarloEnum.insert_canonical (self : MonteCarloEnum Config) : Bool :=
  self.m_insert_canonical

/-- Accessor `bool insert_primitive_only() const`, returning `m_insert_primitive_only`. -/
def MonteCarloEnum.insert_primitive_only (self : MonteCarloEnum Config) : Bool :=
  self.m_insert_primitive_only

/-- The member function `MonteCarloEnum::_insert`.  Each branch calls `m_halloffame->insert(...)` and drops
the `InsertResult` it gets; the body has no `return` statement, so control flows off
the end of a function declared to return an `InsertResult`.  The second component is
the value handed back to the caller: `none`, since no value is returned. -/
def MonteCarloEnum._insert (F : ConfigFunctions Config) (self : MonteCarloEnum Config)
    (config : Config) : MonteCarloEnum Config × Option InsertResult :=
  if self.insert_primitive_only then
    ({ self with
        m_halloffame :=
          (self.m_halloffame.insert F.metric
            (F.canonical_form (F.in_canonical_supercell (F.primitive config)))).1 },
      none)
  else if self.insert_canonical then
    ({ self with
        m_halloffame :=
          (self.m_halloffame.insert F.metric
            (F.canonical_form (F.in_canonical_supercell config))).1 },
      none)
  else
    ({ self with m_halloffame := (self.m_halloffame.insert F.metric config).1 }, none)

/-- The member function `MonteCarloEnum::insert`: attempt to insert a configuration into the enumeration
hall of fame.  The result is the new state and the value returned, `none` when the
returned object was never given a value. -/
def MonteCarloEnum.insert (F : ConfigFunctions Config) (self : MonteCarloEnum Config)
    (config : Config) : MonteCarloEnum Config × Option InsertResult :=
  let check := F.enum_check config
  if !check then
    (self,
      some { pos := self.m_halloffame.end_, success := false, score := Score.nan,
             excluded := false, excluded_pos := self.m_halloffame.end_ })
  else
    -- auto res = _insert(config); ... return res;
    let res := self._insert F config
    res

/-- The member function `MonteCarloEnum::reset`: clear hall of fame and reset excluded.  `db` is the range
`db.begin() .. db.end()` of `primclex().db<Configuration>()`. -/
def MonteCarloEnum.reset (self : MonteCarloEnum Config) (db : List Config) :
    MonteCarloEnum Config :=
  let self := { self with m_halloffame := self.m_halloffame.clear }
  if self.check_existence then
    let self := { self with m_halloffame := self.m_halloffame.clear_excluded }
    -- pushes back ALL configurations in database into the exclude set
    { self with m_halloffame := self.m_halloffame.exclude_range db }
  else
    self

end MonteCarloEnumDefs

/-! ### A concrete instance

Configurations reduced to a supercell volume and an occupation label. -/

/-- A configuration of the instance: the volume of its supercell and a label of its
occupation. -/
structure ToyConfig where
  volume : Nat
  label : Nat
deriving DecidableEq, Repr

/-- Functions of the instance: the primitive configuration has volume one, the
canonical supercell keeps the configuration, the canonical form reduces the label
modulo 4; configurations with an even label pass the check; the metric is the label. -/
def toyFunctions : ConfigFunctions ToyConfig where
  primitive := fun c => { c with volume := 1 }
  in_canonical_supercell := fun c => c
  canonical_form := fun c => { c with label := c.label % 4 }
  enum_check := fun c => c.label % 2 == 0
  metric := fun c => (c.label : ℚ)

/-- An enumerator of the instance with one entry in its hall of fame and one excluded
configuration. -/
def toyEnum (check_existence insert_canonical insert_primitive_only : Bool) :
    MonteCarloEnum ToyConfig :=
  { m_debug := false
    m_halloffame :=
      { m_halloffame := [(2, { volume := 2, label := 2 })]
        m_exclude := [{ volume := 1, label := 3 }]
        m_check_exclusion := check_existence
        m_max_size := 2
        insert_calls := [{ volume := 2, label := 2 }]
        metric_evaluations := [{ volume := 2, label := 2 }] }
    m_check_existence := check_existence
    m_insert_canonical := insert_canonical
    m_insert_primitive_only := insert_primitive_only
    m_save_primitive_only := false }

end Monte
end CASM

namespace CASM

/-- How a call ends when it yields no value: a `std::runtime_error` carrying its
message, or undefined behaviour (such as reading element 0 of an empty vector). -/
inductive Failure where
  | runtime_error (what : String) : Failure
  | undefined_behaviour : Failure
deriving DecidableEq, Repr

namespace Monte

/-! ## Grand canonical Monte Carlo: the Metropolis decision -/

/-- Modelled from the spec: `GrandCanonicalConditions`
(`casm/monte_carlo/grand_canonical/GrandCanonicalConditions.hh`) is not among the
sources.  The spec's data model gives the conditions a temperature, one chemical
potential per composition axis and a numerical tolerance. -/
structure GrandCanonicalConditions where
  temperature : ℚ
  chem_pot : List ℚ
  tolerance : ℚ
deriving DecidableEq, Repr

/-- Modelled from the spec: `GrandCanonicalEvent`
(`casm/monte_carlo/grand_canonical/GrandCanonicalEvent.hh`) is not among the sources.
The spec's data model gives an event the proposed site, its current and its candidate
occupant, and the deltas of formation energy, correlations, composition and order
parameters implied by the change. -/
structure GrandCanonicalEvent where
  mutating_site : Nat
  current_occupant : Nat
  new_occupant : Nat
  dEf : ℚ
  dCorr : List ℚ
  dN : List ℚ
  dEta : List ℚ
deriving DecidableEq, Repr

/-- The state of a `GrandCanonical` calculation that `check`, `accept` and `reject` may
touch: the conditions `m_condition`, the occupation of the configuration, and the
properties the members `m_formation_energy`, `m_potential_energy`, `m_corr`,
`m_comp_n` and `m_eta` point to. -/
structure GrandCanonical where
  m_condition : GrandCanonicalConditions
  occupation : List Nat
  formation_energy : ℚ
  potential_energy : ℚ
  corr : List ℚ
  comp_n : List ℚ
  eta : List ℚ
deriving DecidableEq, Repr

/-- Modelled from the spec: the change of the grand canonical potential of an event,
`ΔE_potential = ΔE_formation − Σ_k μ_k·Δn_k` (section 4.2 of the spec; the code
computing it, `GrandCanonical.cc`, is not among the sources). -/
def GrandCanonicalEvent.dEpot (event : GrandCanonicalEvent)
    (cond : GrandCanonicalConditions) : ℚ :=
  event.dEf - (List.zipWith (fun mu dn => mu * dn) cond.chem_pot event.dN).sum

/-- Modelled from the spec: `GrandCanonical::check` is declared in `GrandCanonical.hh`
and defined in `GrandCanonical.cc`, which is not among the sources.  Following section
4.2 of the spec: accept unconditionally if `ΔE_potential ≤ 0`; at temperature exactly
zero reject any `ΔE_potential > 0`; otherwise accept iff the uniform random number
drawn from `[0,1)` is less than `exp(−ΔE_potential / (k_B·T))`.  The exponential is
the parameter `boltzmann` (its value at `ΔE_potential` and `T`), the number drawn is
`rand`. -/
def GrandCanonical.check (boltzmann : ℚ → ℚ → ℚ) (self : GrandCanonical)
    (event : GrandCanonicalEvent) (rand : ℚ) : Bool :=
  let dEpot := event.dEpot self.m_condition
  if dEpot ≤ 0 then
    true
  else if self.m_condition.temperature = 0 then
    false
  else
    decide (rand < boltzmann dEpot self.m_condition.temperature)

/-- Modelled from the spec: `GrandCanonical::reject` is declared in `GrandCanonical.hh`
("Nothing needs to be done to reject a GrandCanonicalEvent") and defined in
`GrandCanonical.cc`, which is not among the sources.  Following section 4.2 of the
spec it is a no-op. -/
def GrandCanonical.reject (self : GrandCanonical) (_event : GrandCanonicalEvent) :
    GrandCanonical :=
  self

/-- A state of the instance: two sites at temperature 500 with one chemical
potential. -/
def toyGrandCanonical (temperature mu : ℚ) : GrandCanonical :=
  { m_condition := { temperature := temperature, chem_pot := [mu], tolerance := 0 }
    occupation := [0, 1]
    formation_energy := -1
    potential_energy := -3
    corr := [1, 0]
    comp_n := [1, 1]
    eta := [] }

/-- An event of the instance: site 0 changes from occupant 0 to occupant 1 with the
given change of formation energy and of the number of the first species. -/
def toyEvent (dEf dN : ℚ) : GrandCanonicalEvent :=
  { mutating_site := 0, current_occupant := 0, new_occupant := 1, dEf := dEf,
    dCorr := [0, 1], dN := [dN], dEta := [] }

/-! ## Grand canonical settings -/

/-- The enumeration `Monte::DRIVE_MODE` (declared in `MonteDefinitions.hh`, outside the
sources): the two modes `GrandCanonicalSettings::initial_conditions` tests for, and
any further value. -/
inductive DRIVE_MODE where
  | INCREMENTAL : DRIVE_MODE
  | CUSTOM : DRIVE_MODE
  | other (value : Nat) : DRIVE_MODE
deriving DecidableEq, Repr

/-- What `GrandCanonicalSettings` uses of its base class `EquilibriumMonteSettings`,
the settings read from the JSON file: the drive mode `drive_mode()`, the JSON value
`(*this)["driver"][name]` for a name, and the elements of the JSON array
`(*this)["driver"]["custom_conditions"]`. -/
structure EquilibriumMonteSettings (Json : Type) where
  drive_mode : DRIVE_MODE
  driver : String → Json
  custom_conditions : List Json

/-- The class `GrandCanonicalSettings`, which adds no data member that the modelled
functions use to its base class. -/
structure GrandCanonicalSettings (Json : Type) where
  base : EquilibriumMonteSettings Json

section GrandCanonicalSettingsDefs

variable {Json Cond : Type}

/-- The constructor `GrandCanonicalSettings::GrandCanonicalSettings(_primclex,
read_path)`.  `base` is the outcome of the base class constructor
`EquilibriumMonteSettings(_primclex, read_path)`, which runs first, and
`has_composition_axes` the value of `_primclex.has_composition_axes()`. -/
def GrandCanonicalSettings.construct
    (base : Except Failure (EquilibriumMonteSettings Json)) (has_composition_axes : Bool) :
    Except Failure (GrandCanonicalSettings Json) :=
  match base with
  | Except.error e => Except.error e
  | Except.ok b =>
    if !has_composition_axes then
      Except.error (Failure.runtime_error "No composition axes selected.")
    else
      Except.ok { base := b }

/-- The overload `GrandCanonicalSettings::_conditions(const jsonParser &json, mc)`:
`from_json(result, primclex(), json, mc)` on a default-constructed result.  `from_json`
(declared in `GrandCanonicalIO.hh`, outside the sources) is a parameter. -/
def GrandCanonicalSettings._conditions_json (from_json : Json → Except Failure Cond)
    (_self : GrandCanonicalSettings Json) (json : Json) : Except Failure Cond :=
  from_json json

/-- The overload `GrandCanonicalSettings::_conditions(std::string name, mc)`: read the
conditions at `["driver"][name]`; a `std::runtime_error` is logged and thrown again. -/
def GrandCanonicalSettings._conditions (from_json : Json → Except Failure Cond)
    (self : GrandCanonicalSettings Json) (name : String) : Except Failure Cond :=
  match self._conditions_json from_json (self.base.driver name) with
  | Except.ok result => Except.ok result
  | Except.error (Failure.runtime_error what) =>
    Except.error (Failure.runtime_error what)
  | Except.error Failure.undefined_behaviour => Except.error Failure.undefined_behaviour

/-- The loop of `custom_conditions`: `cond.push_back(_conditions(*it, mc))` for every
element of the array, stopping at the first exception. -/
def GrandCanonicalSettings.custom_conditions_loop
    (from_json : Json → Except Failure Cond) (self : GrandCanonicalSettings Json) :
    List Json → List Cond → Except Failure (List Cond)
  | [], cond => Except.ok cond
  | json :: rest, cond =>
    match self._conditions_json from_json json with
    | Except.ok c => custom_conditions_loop from_json self rest (cond ++ [c])
    | Except.error e => Except.error e

/-- The member function `GrandCanonicalSettings::custom_conditions`: the conditions
read from every element of `["driver"]["custom_conditions"]`; a `std::runtime_error` is
logged and thrown again. -/
def GrandCanonicalSettings.custom_conditions (from_json : Json → Except Failure Cond)
    (self : GrandCanonicalSettings Json) : Except Failure (List Cond) :=
  match self.custom_conditions_loop from_json self.base.custom_conditions [] with
  | Except.ok cond => Except.ok cond
  | Except.error (Failure.runtime_error what) =>
    Except.error (Failure.runtime_error what)
  | Except.error Failure.undefined_behaviour => Except.error Failure.undefined_behaviour

/-- Element 0 of a `std::vector` by `operator[]`: undefined behaviour on an empty
vector. -/
def vector_front {α : Type} : List α → Except Failure α
  | [] => Except.error Failure.undefined_behaviour
  | a :: _ => Except.ok a

/-- The member function `GrandCanonicalSettings::initial_conditions`. -/
def GrandCanonicalSettings.initial_conditions (from_json : Json → Except Failure Cond)
    (self : GrandCanonicalSettings Json) : Except Failure Cond :=
  if self.base.drive_mode = DRIVE_MODE.INCREMENTAL then
    self._conditions from_json "initial_conditions"
  else if self.base.drive_mode = DRIVE_MODE.CUSTOM then
    match self.custom_conditions from_json with
    | Except.ok cond => vector_front cond
    | Except.error e => Except.error e
  else
    Except.error (Failure.runtime_error "ERROR: Invalid drive mode.")

end GrandCanonicalSettingsDefs

/-- Settings of the instance: JSON values are numbers, read as a temperature. -/
def toySettings (mode : DRIVE_MODE) (custom : List Int) : GrandCanonicalSettings Int :=
  { base :=
      { drive_mode := mode
        driver := fun name => if name = "initial_conditions" then 300 else -1
        custom_conditions := custom } }

/-- Reading conditions in the instance: a negative temperature is rejected. -/
def toy_from_json (json : Int) : Except Failure Int :=
  if json < 0 then Except.error (Failure.runtime_error "negative temperature")
  else Except.ok json

/-! ## Covariance of two samplers -/

/-- The loop of `CovEvaluator::operator()`: for `i` from 0 below `N`, add `X(i)` to
`Xsum`, `Y(i)` to `Ysum` and `X(i) * Y(i)` to `XYsum`.  The state is
`(Xsum, Ysum, XYsum)`. -/
def CovEvaluator.sums (X Y : List ℚ) (N : Nat) : ℚ × ℚ × ℚ :=
  (List.range N).foldl
    (fun s i => (s.1 + X.getD i 0, s.2.1 + Y.getD i 0, s.2.2 + X.getD i 0 * Y.getD i 0))
    (0, 0, 0)

/-- The call operator `double CovEvaluator::operator()(const ConstMonteCarloPtr &mc)`,
in exact arithmetic.  `obs1` and `obs2` are the observations of the samplers named
`prop_name1` and `prop_name2`, and `equil_second` is `mc->is_equilibrated().second`;
`segment(start, n)` is the block of `n` coefficients starting at `start`. -/
def CovEvaluator.call (obs1 obs2 : List ℚ) (equil_second : Nat) : ℚ :=
  let X := (obs1.drop equil_second).take (obs1.length - equil_second)
  let Y := (obs2.drop equil_second).take (obs2.length - equil_second)
  let N := X.length
  let s := CovEvaluator.sums X Y N
  let Xsum := s.1
  let Ysum := s.2.1
  let XYsum := s.2.2
  (XYsum - Xsum * Ysum / N) / N

end Monte
end CASM

namespace CASM
namespace Monte

/-- A hall of fame of capacity `K` over configurations that are natural numbers, with
no entry and nothing excluded. -/
def emptyHallOfFame (K : Nat) : HallOfFame Nat :=
  { m_halloffame := [], m_exclude := [], m_check_exclusion := true, m_max_size := K,
    insert_calls := [], metric_evaluations := [] }

end Monte
end CASM

namespace CASM
namespace Monte

/-! ## Canonical settings: construction of the samplers -/

/-- One element of the JSON array `["data"]["measurements"]`: its `"quantity"` and, if
present, its `"precision"`. -/
structure Measurement where
  quantity : String
  precision : Option ℚ
deriving DecidableEq, Repr

/-- A constructed sampler, recorded by the constructor call that made it.  `prec` is
`some p` for the constructors that take a precision (the sampler must converge to it)
and `none` for the constructors without one.  For a `QueryMonteSampler` the formatter
is recorded by the query it was parsed from. -/
inductive MonteSampler where
  | ScalarMonteSampler (prop_name print_name : String) (prec : Option ℚ)
      (confidence : ℚ) (data_maxlength : Nat) : MonteSampler
  | VectorMonteSampler (prop_name : String) (index : Nat) (print_name : String)
      (prec : Option ℚ) (confidence : ℚ) (data_maxlength : Nat) : MonteSampler
  | QueryMonteSampler (formatter : String) (index : Nat) (print_name : String)
      (prec : Option ℚ) (confidence : ℚ) (data_maxlength : Nat) : MonteSampler
deriving DecidableEq, Repr

/-- The outcome of parsing a query with the query dictionary of the project and
evaluating it on the example configuration: the size of the evaluated row `test` and
the column headers `col`. -/
structure QueryTest where
  test_size : Nat
  col : List String
deriving DecidableEq, Repr

/-- What `CanonicalSettings::samplers` and its helpers read from the settings and from
the `PrimClex`: `max_data_length()`, `confidence()`, and the calls that may throw:
`make_order_parameter(primclex)` (the `subspace_dim()` of the order parameter, `none`
for a null pointer), `make_order_parameter_subspaces()` (the size of the vector,
`none` for a null pointer), the indices
`primclex.eci(formation_energy(primclex)).index()`, and the query dictionary
(`dict.parse` followed by the evaluation on the example configuration). -/
structure SamplerSettings where
  max_data_length : Nat
  confidence : ℚ
  make_order_parameter : Except String (Option Nat)
  make_order_parameter_subspaces : Except String (Option Nat)
  eci_index : Except String (List Nat)
  query : String → Except String QueryTest

/-- The member function `CanonicalSettings::_get_precision`. -/
def CanonicalSettings._get_precision (it : Measurement) : Bool × ℚ :=
  match it.precision with
  | some p => (true, p)
  | none => (false, 0)

/-- The precision argument of a sampler constructor call: the constructor taking `prec`
if `must_converge`, the one without a precision otherwise. -/
def CanonicalSettings.sampler_prec (it : Measurement) : Option ℚ :=
  let r := CanonicalSettings._get_precision it
  if r.1 then some r.2 else none

/-- The member function `CanonicalSettings::_make_non_zero_eci_correlations_samplers`:
the samplers it writes, one for each index of a non-zero ECI, and whether it returned
or threw.  Its throw site, the access to the ECI, comes before the first write. -/
def CanonicalSettings._make_non_zero_eci_correlations_samplers (S : SamplerSettings)
    (it : Measurement) : List (String × MonteSampler) × Except String Unit :=
  match S.eci_index with
  | Except.error e => ([], Except.error e)
  | Except.ok index =>
    (index.map fun i =>
      let print_name := "corr(" ++ toString i ++ ")"
      (print_name,
        MonteSampler.VectorMonteSampler "corr" i print_name
          (CanonicalSettings.sampler_prec it) S.confidence S.max_data_length),
     Except.ok ())

/-- The samplers the first loop of `_make_order_parameter_samplers` writes: one for
each of the `basis_size` order parameters. -/
def CanonicalSettings.order_parameter_samplers (S : SamplerSettings) (it : Measurement)
    (basis_size : Nat) : List (String × MonteSampler) :=
  (List.range basis_size).map fun i =>
    let print_name := "order_parameter(" ++ toString i ++ ")"
    (print_name,
      MonteSampler.VectorMonteSampler "eta" i print_name
        (CanonicalSettings.sampler_prec it) S.confidence S.max_data_length)

/-- The member function `CanonicalSettings::_make_order_parameter_samplers`: the
samplers it writes, one for each order parameter and one for each subspace, and
whether it returned or threw.  The call of `make_order_parameter_subspaces()` comes
after the first loop: where it throws, the samplers of the first loop are written. -/
def CanonicalSettings._make_order_parameter_samplers (S : SamplerSettings)
    (it : Measurement) : List (String × MonteSampler) × Except String Unit :=
  match S.make_order_parameter with
  | Except.error e => ([], Except.error e)
  | Except.ok order_parameter =>
    let basis_size :=
      match order_parameter with
      | some subspace_dim => subspace_dim
      | none => 0
    let written := CanonicalSettings.order_parameter_samplers S it basis_size
    match S.make_order_parameter_subspaces with
    | Except.error e => (written, Except.error e)
    | Except.ok order_parameter_subspaces =>
      (written ++
        (match order_parameter_subspaces with
          | some n =>
            (List.range n).map fun i =>
              let print_name := "order_parameter_subspace(" ++ toString i ++ ")"
              (print_name,
                MonteSampler.VectorMonteSampler "eta_subspace" i print_name
                  (CanonicalSettings.sampler_prec it) S.confidence S.max_data_length)
          | none => []),
       Except.ok ())

/-- The member function `CanonicalSettings::_make_query_samplers`: the samplers it
writes, one for each column of the query, and whether it returned or threw.  Both
throw sites (parsing the query, and the test `test.size() != col.size()`) come before
the first write. -/
def CanonicalSettings._make_query_samplers (S : SamplerSettings) (it : Measurement) :
    List (String × MonteSampler) × Except String Unit :=
  let prop_name := it.quantity
  match S.query prop_name with
  | Except.error e => ([], Except.error e)
  | Except.ok t =>
    if t.test_size != t.col.length then
      ([], Except.error
        ("Error constructing Monte Carlo samplers from query: '" ++ prop_name ++ "'"))
    else
      ((List.range t.col.length).map fun i =>
        let print_name := (t.col.getD i "").trim
        (print_name,
          MonteSampler.QueryMonteSampler prop_name i print_name
            (CanonicalSettings.sampler_prec it) S.confidence S.max_data_length),
       Except.ok ())

/-- The list `t_measurements` of `CanonicalSettings::samplers` when the loop over it
starts: the measurements of the settings with `"all_correlations"` replaced by
`"corr"`, followed by the required quantities that were not requested.
`has_order_parameter` is the value of `make_order_parameter(primclex) != nullptr`. -/
def CanonicalSettings.t_measurements (has_order_parameter : Bool)
    (measurements : List Measurement) : List Measurement :=
  -- find existing measurements
  let t_measurements := measurements.map fun m =>
    if m.quantity = "all_correlations" then { m with quantity := "corr" } else m
  let input_measurements := t_measurements.map fun m => m.quantity
  let required := ["potential_energy", "formation_energy"] ++
    (if has_order_parameter then ["order_parameter"] else [])
  -- add required if not already requested
  required.foldl
    (fun t r => if r ∈ input_measurements then t else t ++ [{ quantity := r, precision := none }])
    t_measurements

/-- The body of the loop of `CanonicalSettings::samplers` for one measurement: the
samplers written for it, and whether the body completed or threw.  What is written
before a throw stays written. -/
def CanonicalSettings.samplers_of (S : SamplerSettings) (it : Measurement) :
    List (String × MonteSampler) × Except String Unit :=
  let prop_name := it.quantity
  -- scalar quantities that we incrementally update
  if prop_name ∈ ["formation_energy", "potential_energy"] then
    ([(prop_name,
        MonteSampler.ScalarMonteSampler prop_name prop_name
          (CanonicalSettings.sampler_prec it) S.confidence S.max_data_length)],
     Except.ok ())
  else if prop_name ∈ ["non_zero_eci_correlations", "order_parameter"] then
    -- construct MonteSamplers for 'non_zero_eci_correlations'
    let first :=
      if prop_name = "non_zero_eci_correlations" then
        CanonicalSettings._make_non_zero_eci_correlations_samplers S it
      else ([], Except.ok ())
    match first.2 with
    | Except.error e => (first.1, Except.error e)
    | Except.ok () =>
      -- construct MonteSamplers for 'order_parameter'
      let second :=
        if prop_name = "order_parameter" then
          CanonicalSettings._make_order_parameter_samplers S it
        else ([], Except.ok ())
      (first.1 ++ second.1, second.2)
  else
    -- custom query
    CanonicalSettings._make_query_samplers S it

/-- The loop of `CanonicalSettings::samplers` over `t_measurements`.  `result` is what
has been written to the output iterator so far; what is written stays written when a
measurement throws. -/
def CanonicalSettings.samplers_loop (S : SamplerSettings) :
    List Measurement → List (String × MonteSampler) →
      List (String × MonteSampler) × Except String Unit
  | [], result => (result, Except.ok ())
  | it :: rest, result =>
    match CanonicalSettings.samplers_of S it with
    | (written, Except.ok ()) => samplers_loop S rest (result ++ written)
    | (written, Except.error e) => (result ++ written, Except.error e)

/-- The member function `CanonicalSettings::samplers`: construct the samplers specified
in the settings.  The value is what the call has written to the output iterator
(an inserter: the samplers are inserted in `result`), and whether it returned
normally or threw.  The call of `make_order_parameter(primclex)` that decides whether
`"order_parameter"` is required comes before the loop, outside the `try` block. -/
def CanonicalSettings.samplers (S : SamplerSettings) (measurements : List Measurement) :
    List (String × MonteSampler) × Except String Unit :=
  match S.make_order_parameter with
  | Except.error e => ([], Except.error e)
  | Except.ok order_parameter =>
    CanonicalSettings.samplers_loop S
      (CanonicalSettings.t_measurements order_parameter.isSome measurements) []

/-- Settings of the instance: the query `comp` has two columns, the query `bad`
evaluates to a row of two values under one column header. -/
def toySamplerSettings : SamplerSettings :=
  { max_data_length := 1000
    confidence := 1
    make_order_parameter := Except.ok none
    make_order_parameter_subspaces := Except.ok none
    eci_index := Except.ok [0, 2]
    query := fun q =>
      if q = "comp" then Except.ok { test_size := 2, col := ["comp(a)", "comp(b)"] }
      else if q = "bad" then Except.ok { test_size := 2, col := ["bad"] }
      else Except.error "unknown query" }

/-- Settings of the instance with an order parameter of two components whose subspaces
cannot be read. -/
def toyOrderParameterSettings : SamplerSettings :=
  { toySamplerSettings with
    make_order_parameter := Except.ok (some 2)
    make_order_parameter_subspaces := Except.error "cannot read subspaces" }

end Monte

/-! ## ConfigMapper options -/

/-- The member function `bool ConfigMapper::strict() const`, which returns
`struc_mapper().options() && StrucMapper::strict`: the logical conjunction of the
options and the flag, each converted to `bool`.  `options` is the value of
`struc_mapper().options()` and `StrucMapper_strict` the value of the enumerator
`StrucMapper::strict` (declared in `StrucMapping.hh`, outside the sources). -/
def ConfigMapper.strict (options : Int) (StrucMapper_strict : Int) : Bool :=
  (options != 0) && (StrucMapper_strict != 0)

/-- Whether the flag `flag` is set in `options`, a bitwise OR of flags. -/
def ConfigMapper.flag_is_set (options : Int) (flag : Int) : Bool :=
  Int.land options flag != 0

end CASM

namespace CASM
namespace Kinetics

/-! ## Diffusion transformations in a configuration -/

/-- The type `Index` of occupant indices and of values compared with them. -/
abbrev Index := Int

/-- A `UnitCellCoord` (b, i, j, k): sublattice and unit cell. -/
structure UnitCellCoord where
  b : Int
  i : Int
  j : Int
  k : Int
deriving DecidableEq, Repr

/-- The struct `SpecieLocation`: unit cell coordinate, occupant index, and position of
the specie in the molecule. -/
structure SpecieLocation where
  uccoord : UnitCellCoord
  occ : Index
  pos : Index
deriving DecidableEq, Repr

/-- The class `SpecieTrajectory`: the locations `from` and `to` of one moving specie. -/
structure SpecieTrajectory where
  from_ : SpecieLocation
  to_ : SpecieLocation
deriving DecidableEq, Repr

/-- The accessor `specie_traj()` of `DiffusionTransformation`: the only member
`make_attachable` reads. -/
structure DiffusionTransformation where
  specie_traj : List SpecieTrajectory
deriving DecidableEq, Repr

/-- What `make_attachable` uses of the supercell of the background configuration:
`linear_index(uccoord)` and `max_allowed_occupation()[l]`. -/
structure Supercell where
  linear_index : UnitCellCoord → Nat
  max_allowed_occupation : Nat → Int

/-- A `Configuration` as far as `make_attachable` uses it: the occupant `occ(l)` at
each site of its supercell. -/
structure Configuration where
  occ : Nat → Int

/-- The member function `Configuration::set_occ(l, value)`. -/
def Configuration.set_occ (self : Configuration) (l : Nat) (value : Int) :
    Configuration :=
  { occ := fun site => if site = l then value else self.occ site }

/-- The body of the loop of `make_attachable` for one trajectory.  The message written
to `std::cerr` for an occupant that is not valid at the site is not modelled. -/
def make_attachable_step (scel : Supercell) (bg_config : Configuration)
    (result : Configuration) (traj : SpecieTrajectory) : Configuration :=
  let l := scel.linear_index traj.from_.uccoord
  if bg_config.occ l != traj.from_.occ then
    if traj.from_.occ < scel.max_allowed_occupation l then
      result.set_occ l traj.from_.occ
    else
      result
  else
    result

/-- The function `make_attachable(diff_trans, bg_config)`: a copy of `bg_config` with
sites altered such that `diff_trans` can be placed as is.  `scel` is
`bg_config.supercell()`.  The test of `diff_trans` against its prepared form only
writes a message to `std::cerr` and is not modelled. -/
def make_attachable (scel : Supercell) (diff_trans : DiffusionTransformation)
    (bg_config : Configuration) : Configuration :=
  diff_trans.specie_traj.foldl (make_attachable_step scel bg_config) bg_config

/-- A supercell of the instance: sites along a line, the linear index of a coordinate
is its `i` taken modulo 4, and every site allows the occupants 0 and 1 (maximum
allowed occupation 1). -/
def lineSupercell : Supercell :=
  { linear_index := fun u => (u.i % 4).toNat
    max_allowed_occupation := fun _ => 1 }

/-- A trajectory of the instance: the specie with occupant index `occ` at site `i`
moves to site `j`. -/
def hop (i j : Int) (occ : Index) : SpecieTrajectory :=
  { from_ := { uccoord := { b := 0, i := i, j := 0, k := 0 }, occ := occ, pos := 0 }
    to_ := { uccoord := { b := 0, i := j, j := 0, k := 0 }, occ := occ, pos := 0 } }

/-- The configuration of the instance with occupant 0 on every site. -/
def emptyLine : Configuration :=
  { occ := fun _ => 0 }

/-- The members of `DiffTransConfiguration`: the diffusion transformation and the
configuration it starts from. -/
structure DiffTransConfiguration (DT Config : Type) where
  m_diff_trans : DT
  m_from_config : Config
deriving DecidableEq, Repr

/-- The functions `DiffTransConfiguration::sort` and `is_sorted` call and whose code is
outside the sources: `to_config()` (the configuration after the transformation, as a
function of the transformation and the from-configuration),
`DiffusionTransformation::reverse()` and `Configuration::operator<`. -/
structure DiffTransFunctions (DT Config : Type) where
  to_config : DT → Config → Config
  reverse : DT → DT
  lt : Config → Config → Bool

section DiffTransConfigurationDefs

variable {DT Config : Type}

/-- The member function `DiffTransConfiguration::to_config()`, through the
parameter. -/
def DiffTransConfiguration.to_config (F : DiffTransFunctions DT Config)
    (self : DiffTransConfiguration DT Config) : Config :=
  F.to_config self.m_diff_trans self.m_from_config

/-- The member function `DiffTransConfiguration::sort()`: sort in place. -/
def DiffTransConfiguration.sort (F : DiffTransFunctions DT Config)
    (self : DiffTransConfiguration DT Config) : DiffTransConfiguration DT Config :=
  let to_ := self.to_config F
  if F.lt to_ self.m_from_config then
    { m_from_config := to_, m_diff_trans := F.reverse self.m_diff_trans }
  else
    self

/-- The member function `DiffTransConfiguration::sorted()`: a sorted version of this
`DiffTransConfiguration`. -/
def DiffTransConfiguration.sorted (F : DiffTransFunctions DT Config)
    (self : DiffTransConfiguration DT Config) : DiffTransConfiguration DT Config :=
  let tmp := self
  tmp.sort F

/-- The member function `DiffTransConfiguration::is_sorted()`. -/
def DiffTransConfiguration.is_sorted (F : DiffTransFunctions DT Config)
    (self : DiffTransConfiguration DT Config) : Bool :=
  let to_ := self.to_config F
  F.lt self.m_from_config to_

end DiffTransConfigurationDefs

/-- An occupation change of the instance at one site: site, occupant before, occupant
after. -/
structure OccChange where
  site : Nat
  from_value : Nat
  to_value : Nat
deriving DecidableEq, Repr

/-- Functions of the instance: a configuration is the list of its occupants, compared
lexicographically; a transformation is a list of occupation changes, applied by
writing the occupant after the change at each site, and reversed by exchanging the
occupants before and after.  The null transformation is the empty list. -/
def occFunctions : DiffTransFunctions (List OccChange) (List Nat) :=
  { to_config := fun dt config => dt.foldl (fun c t => c.set t.site t.to_value) config
    reverse := fun dt =>
      dt.map fun t => { site := t.site, from_value := t.to_value, to_value := t.from_value }
    lt := fun a b => decide (a < b) }

end Kinetics
end CASM

namespace CASM
namespace Monte2

section CompletionCheckRule

variable {Cutoff Conv Sampled Samplers Time EI CI : Type}

/-- The verdict of the completion checker as section 4.4 of the spec words it, in four
steps: (1) if any configured minimum is unmet, not complete; (2) if no properties are
configured for auto-convergence, skip to step 4; (3) run the equilibration test and,
if all tracked properties have equilibrated, the convergence test over the
post-equilibration suffix: if all converge, complete; (4) if any configured maximum is
exceeded, complete.  This definition follows the spec, not the code. -/
def spec_four_step_rule (X : Externals Cutoff Conv Sampled Samplers Time EI CI)
    (params : CompletionCheckParams Cutoff Conv) (sampled_data : Sampled) : Bool :=
  let count := X.get_count sampled_data
  let time := X.get_time sampled_data
  let N_samples := X.get_n_samples sampled_data
  -- step 1
  if !X.all_minimums_met params.cutoff_params count time N_samples then
    false
  -- step 2
  else if params.convergence_check_params.isEmpty then
    X.any_maximum_met params.cutoff_params count time N_samples
  else
    -- step 3
    let equilibration :=
      X.equilibration_check params.convergence_check_params (X.samplers sampled_data) false
    if equilibration.all_equilibrated &&
        (X.convergence_check params.convergence_check_params
          equilibration.N_samples_for_all_to_equilibrate
          (X.samplers sampled_data)).all_converged then
      true
    else
      -- step 4
      X.any_maximum_met params.cutoff_params count time N_samples

end CompletionCheckRule

end Monte2
end CASM

namespace CASM
namespace Monte

/-- Whether a sampler is a `ScalarMonteSampler`. -/
def MonteSampler.is_scalar : MonteSampler → Bool
  | MonteSampler.ScalarMonteSampler _ _ _ _ _ => true
  | _ => false

/-- Whether an output pair is a `ScalarMonteSampler` written under the key `q`. -/
def is_scalar_keyed (q : String) (p : String × MonteSampler) : Bool :=
  p.1 == q && p.2.is_scalar

end Monte
end CASM

namespace CASM
namespace sym

/-! ## Symmetry operations on unit cell coordinates -/

/-- The class `xtal::UnitCell`: a vector of three integers (`Eigen::Vector3l`).  The
components are mathematical integers: the model is of calls in which no operation on
`long` overflows. -/
abbrev UnitCell := Fin 3 → ℤ

/-- The class `xtal::UnitCellCoord`: the sublattice index and the unit cell. -/
structure UnitCellCoord where
  m_sublat : Int
  m_unitcell : UnitCell
deriving DecidableEq

/-- Accessor `UnitCellCoord::sublattice()`. -/
def UnitCellCoord.sublattice (ucc : UnitCellCoord) : Int := ucc.m_sublat

/-- Accessor `UnitCellCoord::unitcell()`. -/
def UnitCellCoord.unitcell (ucc : UnitCellCoord) : UnitCell := ucc.m_unitcell

/-- The class `SymBasisPermute` as `copy_apply` reads it: the integer matrix
`matrix()` and the vector of unit cell coordinates indexed by `operator[]`. -/
structure SymBasisPermute where
  m_point_mat : Matrix (Fin 3) (Fin 3) ℤ
  m_ucc_permute : List UnitCellCoord

/-- Accessor `SymBasisPermute::matrix()`. -/
def SymBasisPermute.matrix (rep : SymBasisPermute) : Matrix (Fin 3) (Fin 3) ℤ :=
  rep.m_point_mat

/-- The operator `SymBasisPermute::operator[](Index b)`: the element `b` of the vector,
or `none` where `b` is not an index of the vector (the behaviour is then undefined). -/
def SymBasisPermute.get (rep : SymBasisPermute) (b : Int) : Option UnitCellCoord :=
  if 0 ≤ b then rep.m_ucc_permute[b.toNat]? else none

/-- The class `SymOp` as `copy_apply` reads it: `get_basis_permute_rep(id)`, a pointer
that is null (`none`) where the operation has no such representation, and
`integral_tau()`, a cartesian vector. -/
structure SymOp where
  get_basis_permute_rep : Nat → Option SymBasisPermute
  integral_tau : Fin 3 → ℚ

/-- The class `xtal::Structure` as `copy_apply` reads it:
`basis_permutation_symrep_ID()` and `lattice().inv_lat_column_mat()`. -/
structure Structure where
  basis_permutation_symrep_ID : Nat
  inv_lat_column_mat : Matrix (Fin 3) (Fin 3) ℚ

/-- The function `sym::copy_apply<SymOp, UnitCellCoord, Structure>`.  The function
`lround` that rounds a vector to integers (`casm/misc/CASM_Eigen_math.hh`, outside the
sources) is a parameter.  Dereferencing a null representation and indexing the
representation out of range are undefined behaviour. -/
def copy_apply (lround : (Fin 3 → ℚ) → UnitCell) (op : SymOp) (copied_ucc : UnitCellCoord)
    (prim : Structure) : Except Failure UnitCellCoord :=
  -- transform using stored SymBasisPermute representation
  match op.get_basis_permute_rep prim.basis_permutation_symrep_ID with
  | none => Except.error Failure.undefined_behaviour
  | some rep =>
    match rep.get copied_ucc.sublattice with
    | none => Except.error Failure.undefined_behaviour
    | some p =>
      let new_unitcell : UnitCell := rep.matrix.mulVec copied_ucc.unitcell + p.unitcell
      let new_sublattice := p.sublattice
      -- additional translations, stored in SymOp::integral_tau() (cartesian), are
      -- converted to fractional coordinates and added to the unitcell()
      let new_unitcell : UnitCell :=
        new_unitcell + lround (prim.inv_lat_column_mat.mulVec op.integral_tau)
      Except.ok { m_sublat := new_sublattice, m_unitcell := new_unitcell }

/-- The function `sym::apply<SymOp, UnitCellCoord, Structure>`, which changes
`mutating_ucc` in place and returns a reference to it: the value is that of
`mutating_ucc` after the call. -/
def apply (lround : (Fin 3 → ℚ) → UnitCell) (op : SymOp) (mutating_ucc : UnitCellCoord)
    (prim : Structure) : Except Failure UnitCellCoord :=
  match copy_apply lround op mutating_ucc prim with
  | Except.error e => Except.error e
  | Except.ok ucc_after_apply =>
    -- std::swap(ucc_after_apply, mutating_ucc)
    let swapped : UnitCellCoord × UnitCellCoord := (mutating_ucc, ucc_after_apply)
    let mutating_ucc := swapped.2
    Except.ok mutating_ucc

/-! ### A concrete instance -/

/-- A representation on two sublattices: the matrix exchanges the first two axes, and
the sublattices are exchanged, the second with a shift of one cell along the third
axis. -/
def toyRep : SymBasisPermute :=
  { m_point_mat := !![0, 1, 0; 1, 0, 0; 0, 0, 1]
    m_ucc_permute :=
      [{ m_sublat := 1, m_unitcell := ![0, 0, 0] },
       { m_sublat := 0, m_unitcell := ![0, 0, 1] }] }

/-- An operation with the representation `toyRep` and no integral translation. -/
def toyOp : SymOp :=
  { get_basis_permute_rep := fun _ => some toyRep
    integral_tau := ![0, 0, 0] }

/-- A structure with the identity lattice. -/
def toyPrim : Structure :=
  { basis_permutation_symrep_ID := 0
    inv_lat_column_mat := 1 }

/-- Rounding of each component to the nearest integer. -/
def toy_lround (v : Fin 3 → ℚ) : UnitCell := fun i => round (v i)

end sym
end CASM

namespace CASM
namespace Kinetics

/-! ## Canonical form of a diffusion transformation in a configuration -/

/-- The functions `DiffTransConfiguration::to_canonical` and the constructor call and
whose code is outside the sources: `ScelPeriodicDiffTransSymCompare::prepare`,
`copy_apply` of an operation of the permutation range to a diffusion transformation
and to a configuration, the operators `==` and `>` of `DiffusionTransformation` and the
operator `>=` of `DiffTransConfiguration` (all three from the base `Comparisons`). -/
structure CanonicalFunctions (Perm DT Config : Type) where
  prepare : DT → DT
  copy_apply_diff_trans : Perm → DT → DT
  copy_apply_config : Perm → Config → Config
  diff_trans_eq : DT → DT → Bool
  diff_trans_gt : DT → DT → Bool
  ge : DiffTransConfiguration DT Config → DiffTransConfiguration DT Config → Bool

section ToCanonicalDefs

variable {Perm DT Config : Type}

/-- The constructor `DiffTransConfiguration(_from_config, _diff_trans)`: the members
are initialised from the arguments, then `m_diff_trans` is replaced by
`symcompare.prepare(m_diff_trans)`. -/
def DiffTransConfiguration.construct (C : CanonicalFunctions Perm DT Config)
    (_from_config : Config) (_diff_trans : DT) : DiffTransConfiguration DT Config :=
  let self : DiffTransConfiguration DT Config :=
    { m_diff_trans := _diff_trans, m_from_config := _from_config }
  { self with m_diff_trans := C.prepare self.m_diff_trans }

/-- Accessor `DiffTransConfiguration::from_config()`. -/
def DiffTransConfiguration.from_config (self : DiffTransConfiguration DT Config) :
    Config :=
  self.m_from_config

/-- The first loop of `to_canonical`, over the permutation range: the state is
`(greatest, checklist)`. -/
def DiffTransConfiguration.to_canonical_checklist (C : CanonicalFunctions Perm DT Config)
    (m_diff_trans : DT) : List Perm → DT × List Perm → DT × List Perm
  | [], state => state
  | it :: rest, (greatest, checklist) =>
    let tmp := C.prepare (C.copy_apply_diff_trans it m_diff_trans)
    if C.diff_trans_eq tmp greatest then
      to_canonical_checklist C m_diff_trans rest (greatest, checklist ++ [it])
    else if C.diff_trans_gt tmp greatest then
      -- checklist.clear(); greatest = tmp; checklist.push_back(it)
      to_canonical_checklist C m_diff_trans rest (tmp, [] ++ [it])
    else
      to_canonical_checklist C m_diff_trans rest (greatest, checklist)

/-- The second loop of `to_canonical`, over the rest of `checklist`: the state is
`(max_dtc, canon_op_it)`. -/
def DiffTransConfiguration.to_canonical_max (F : DiffTransFunctions DT Config)
    (C : CanonicalFunctions Perm DT Config) (self : DiffTransConfiguration DT Config)
    (greatest : DT) :
    List Perm → DiffTransConfiguration DT Config × Perm →
      DiffTransConfiguration DT Config × Perm
  | [], state => state
  | it :: rest, (max_dtc, canon_op_it) =>
    let tmp := C.copy_apply_config it (self.sorted F).from_config
    let dtc_tmp := DiffTransConfiguration.construct C tmp greatest
    if C.ge (dtc_tmp.sorted F) max_dtc then
      to_canonical_max F C self greatest rest (dtc_tmp.sorted F, it)
    else
      to_canonical_max F C self greatest rest (max_dtc, canon_op_it)

/-- The member function `DiffTransConfiguration::to_canonical()`.  `permute_range` is
the range from `supercell().permute_begin()` to `supercell().permute_end()`.  Reading
the first element of an empty `checklist` is undefined behaviour. -/
def DiffTransConfiguration.to_canonical (F : DiffTransFunctions DT Config)
    (C : CanonicalFunctions Perm DT Config) (permute_range : List Perm)
    (self : DiffTransConfiguration DT Config) : Except Failure Perm :=
  -- check which supercell factor group operations when applied to m_diff_trans
  -- results in the greatest DiffusionTransformation
  let state := DiffTransConfiguration.to_canonical_checklist C self.m_diff_trans
    permute_range (C.prepare self.m_diff_trans, [])
  let greatest := state.1
  let checklist := state.2
  -- of these operations check which one maximizes the result of applying to
  -- m_from_config
  match checklist with
  | [] => Except.error Failure.undefined_behaviour
  | it :: rest =>
    let max_dtc :=
      DiffTransConfiguration.construct C
        (C.copy_apply_config it (self.sorted F).from_config) greatest
    let canon_op_it := it
    -- return the operation that transforms this to canonical form
    Except.ok
      (DiffTransConfiguration.to_canonical_max F C self greatest rest
        (max_dtc, canon_op_it)).2

end ToCanonicalDefs

/-! ### A concrete instance -/

/-- Transformations and configurations of the instance are numbers: the transformation
adds its number to the configuration, and is its own reverse. -/
def cyclicFunctions : DiffTransFunctions Nat Nat :=
  { to_config := fun dt config => config + dt
    reverse := fun dt => dt
    lt := fun a b => decide (a < b) }

/-- The operations of the instance are numbers: an operation adds its number modulo 3
to a transformation and leaves a configuration unchanged. -/
def cyclicCanonical : CanonicalFunctions Nat Nat Nat :=
  { prepare := fun dt => dt
    copy_apply_diff_trans := fun op dt => (dt + op) % 3
    copy_apply_config := fun _ config => config
    diff_trans_eq := fun a b => decide (a = b)
    diff_trans_gt := fun a b => decide (b < a)
    ge := fun a b => decide (b.m_from_config ≤ a.m_from_config) }

end Kinetics
end CASM

namespace CASM

/-! ## Generators of the sub-orbits -/

/-- The members of `MakeSubOrbitGenerators`: the group and the subgroup, each the
sequence of its operations. -/
structure MakeSubOrbitGenerators (Op : Type) where
  m_group : List Op
  m_subgroup : List Op

section MakeSubOrbitGeneratorsDefs

variable {Op Element : Type} [Mul Op]

/-- The constructor `MakeSubOrbitGenerators(group, subgroup)`. -/
def MakeSubOrbitGenerators.construct (group subgroup : List Op) :
    MakeSubOrbitGenerators Op :=
  { m_group := group, m_subgroup := subgroup }

/-- The lambda of `MakeSubOrbitGenerators::operator()`: whether for some `el_op` of the
invariant subgroup `test_op.index() < (op * test_op * el_op).index()`.  The function
`SymOp::index()` is the parameter `index`. -/
def MakeSubOrbitGenerators.lambda (index : Op → Int) (invariant_subgroup : List Op)
    (test_op op : Op) : Bool :=
  invariant_subgroup.any fun el_op => decide (index test_op < index (op * test_op * el_op))

/-- The loop of `MakeSubOrbitGenerators::operator()` over the operations of `m_group`;
`result` is what has been written to the output iterator so far. -/
def MakeSubOrbitGenerators.loop (index : Op → Int) (copy_apply : Op → Element → Element)
    (self : MakeSubOrbitGenerators Op) (element : Element) (invariant_subgroup : List Op) :
    List Op → List Element → List Element
  | [], result => result
  | test_op :: rest, result =>
    -- if test_op is max
    if self.m_subgroup.all fun op =>
        !MakeSubOrbitGenerators.lambda index invariant_subgroup test_op op then
      -- apply to element and construct suborbit generator
      loop index copy_apply self element invariant_subgroup rest
        (result ++ [copy_apply test_op element])
    else
      loop index copy_apply self element invariant_subgroup rest result

/-- The member function
`MakeSubOrbitGenerators::operator()(element, invariant_subgroup, result)`: the value is
what the output iterator has received when the call returns. -/
def MakeSubOrbitGenerators.call (index : Op → Int) (copy_apply : Op → Element → Element)
    (self : MakeSubOrbitGenerators Op) (element : Element) (invariant_subgroup : List Op)
    (result : List Element) : List Element :=
  MakeSubOrbitGenerators.loop index copy_apply self element invariant_subgroup
    self.m_group result

/-- The function
`make_suborbit_generators(element, invariant_subgroup, group, subgroup, result)`. -/
def make_suborbit_generators (index : Op → Int) (copy_apply : Op → Element → Element)
    (element : Element) (invariant_subgroup group subgroup : List Op)
    (result : List Element) : List Element :=
  (MakeSubOrbitGenerators.construct group subgroup).call index copy_apply element
    invariant_subgroup result

/-- Whether the index of `g` is the greatest in the double coset `H g K`: no
`h * g * k` with `h` in `H` and `k` in `K` has a greater index. -/
def greatest_in_double_coset (index : Op → Int) (H K : List Op) (g : Op) : Bool :=
  H.all fun h => K.all fun k => decide (index (h * g * k) ≤ index g)

/-- Whether `x` is in the double coset `H g K`. -/
def in_double_coset (H K : List Op) (g x : Op) : Prop :=
  ∃ h ∈ H, ∃ k ∈ K, x = h * g * k

end MakeSubOrbitGeneratorsDefs

/-! ### A concrete instance -/

/-- The cyclic group of order four, written multiplicatively. -/
abbrev C4 := Multiplicative (ZMod 4)

/-- The operations of the cyclic group of order four. -/
def C4.group : List C4 :=
  [Multiplicative.ofAdd 0, Multiplicative.ofAdd 1, Multiplicative.ofAdd 2,
   Multiplicative.ofAdd 3]

/-- The subgroup of order two. -/
def C4.subgroup : List C4 := [Multiplicative.ofAdd 0, Multiplicative.ofAdd 2]

/-- The trivial subgroup. -/
def C4.trivial : List C4 := [Multiplicative.ofAdd 0]

/-- The index of an operation of the cyclic group. -/
def C4.index (g : C4) : Int := (ZMod.val (Multiplicative.toAdd g) : Nat)

/-- The operations act on the residues modulo four by translation. -/
def C4.copy_apply (g : C4) (element : ZMod 4) : ZMod 4 := Multiplicative.toAdd g + element

end CASM

namespace CASM
namespace Monte

/-! ## Saving the hall of fame to the configuration database -/

section SaveConfigsDefs

variable {Config DB : Type} [DecidableEq Config]

end SaveConfigsDefs

/-! ### A concrete instance -/

end Monte
end CASM

/-! # Theorems -/

namespace CASM
namespace Monte2

section CompletionCheckTheorems

variable {Cutoff Conv Sampled Samplers Time EI CI : Type}

/-- The verdict of `check_maximum`: complete if a maximum is met, otherwise what the
results already said. -/
theorem check_maximum_is_complete (X : Externals Cutoff Conv Sampled Samplers Time EI CI)
    (cutoff : Cutoff) (count : CountType) (time : Time) (N : CountType)
    (r : CompletionCheckResults EI CI) :
    (CompletionCheck.check_maximum X cutoff count time N r).is_complete =
      (X.any_maximum_met cutoff count time N || r.is_complete) := by
  unfold CompletionCheck.check_maximum
  cases X.any_maximum_met cutoff count time N <;> simp

/-- C1: if `all_minimums_met` is false, `_check` leaves `is_complete = false`, whatever
the maximum cutoffs and whatever the equilibration and convergence checks report. -/
theorem check_not_complete_before_minimums
    (X : Externals Cutoff Conv Sampled Samplers Time EI CI)
    (self : CompletionCheck Cutoff Conv EI CI) (sampled_data : Sampled)
    (hmin : X.all_minimums_met self.m_params.cutoff_params (X.get_count sampled_data)
      (X.get_time sampled_data) (X.get_n_samples sampled_data) = false) :
    (self._check X sampled_data).m_results.is_complete = false := by
  simp [CompletionCheck._check, hmin]

/-- Witness of C1: two samples where a minimum of five is configured, a maximum of one
pass already exceeded and converged samplers; the check reports not complete. -/
theorem check_not_complete_before_minimums_witness :
    concreteExternals.all_minimums_met fiveSamplesOnePass 9 0 2 = false ∧
      concreteExternals.any_maximum_met fiveSamplesOnePass 9 0 2 = true ∧
      ((concreteCheck fiveSamplesOnePass ["formation_energy"])._check concreteExternals
        (sampledAt { equilibrated := true, N_equil := 0, converged := true } 9 2)
        ).m_results.is_complete = false :=
  ⟨by decide, by decide,
   check_not_complete_before_minimums concreteExternals
     (concreteCheck fiveSamplesOnePass ["formation_energy"])
     (sampledAt { equilibrated := true, N_equil := 0, converged := true } 9 2)
     (by decide)⟩

/-- Counterexample to C2 as stated: the maximum pass count (1) is exceeded at count 9,
but only two of the five required samples exist, and `_check` reports not complete. -/
theorem check_maximum_met_not_complete :
    concreteExternals.any_maximum_met fiveSamplesOnePass 9 0 2 = true ∧
      ((concreteCheck fiveSamplesOnePass [])._check concreteExternals
        (sampledAt { equilibrated := false, N_equil := 0, converged := false } 9 2)
        ).m_results.is_complete = false := by
  decide

/-- C2 (amended): if all minimums are met and `any_maximum_met` is true, `_check` sets
`is_complete = true`, whatever the equilibration and convergence checks report. -/
theorem check_complete_at_maximum
    (X : Externals Cutoff Conv Sampled Samplers Time EI CI)
    (self : CompletionCheck Cutoff Conv EI CI) (sampled_data : Sampled)
    (hmin : X.all_minimums_met self.m_params.cutoff_params (X.get_count sampled_data)
      (X.get_time sampled_data) (X.get_n_samples sampled_data) = true)
    (hmax : X.any_maximum_met self.m_params.cutoff_params (X.get_count sampled_data)
      (X.get_time sampled_data) (X.get_n_samples sampled_data) = true) :
    (self._check X sampled_data).m_results.is_complete = true := by
  unfold CompletionCheck._check
  simp only [hmin, Bool.not_true, Bool.false_eq_true, if_false]
  split_ifs <;> simp [check_maximum_is_complete, hmax]

/-- Witness of C2 (amended): five samples of the five required, the maximum of one pass
exceeded, samplers neither equilibrated nor converged; the check reports complete. -/
theorem check_complete_at_maximum_witness :
    concreteExternals.all_minimums_met fiveSamplesOnePass 9 0 5 = true ∧
      concreteExternals.any_maximum_met fiveSamplesOnePass 9 0 5 = true ∧
      ((concreteCheck fiveSamplesOnePass ["formation_energy"])._check concreteExternals
        (sampledAt { equilibrated := false, N_equil := 0, converged := false } 9 5)
        ).m_results.is_complete = true :=
  ⟨by decide, by decide,
   check_complete_at_maximum concreteExternals
     (concreteCheck fiveSamplesOnePass ["formation_energy"])
     (sampledAt { equilibrated := false, N_equil := 0, converged := false } 9 5)
     (by decide) (by decide)⟩

/-- C3: if all minimums are met, `convergence_check_params` is non-empty,
`equilibration_check` reports `all_equilibrated` and `convergence_check` (on the
equilibration sample count just reported) reports `all_converged`, then `_check` sets
`is_complete = true`; no maximum cutoff needs to be met. -/
theorem check_complete_when_converged
    (X : Externals Cutoff Conv Sampled Samplers Time EI CI)
    (self : CompletionCheck Cutoff Conv EI CI) (sampled_data : Sampled)
    (hmin : X.all_minimums_met self.m_params.cutoff_params (X.get_count sampled_data)
      (X.get_time sampled_data) (X.get_n_samples sampled_data) = true)
    (hconv : self.m_params.convergence_check_params ≠ [])
    (hequil : (X.equilibration_check self.m_params.convergence_check_params
      (X.samplers sampled_data) false).all_equilibrated = true)
    (hall : (X.convergence_check self.m_params.convergence_check_params
      (X.equilibration_check self.m_params.convergence_check_params
        (X.samplers sampled_data) false).N_samples_for_all_to_equilibrate
      (X.samplers sampled_data)).all_converged = true) :
    (self._check X sampled_data).m_results.is_complete = true := by
  have hlen : (self.m_params.convergence_check_params.length != 0) = true := by
    cases h : self.m_params.convergence_check_params with
    | nil => exact absurd h hconv
    | cons a l => rfl
  simp [CompletionCheck._check, hmin, hlen, hequil, hall]

/-- Witness of C3: converged samplers with no maximum configured (so none met): the
check reports complete. -/
theorem check_complete_when_converged_witness :
    concreteExternals.all_minimums_met fiveSamples 9 0 7 = true ∧
      concreteExternals.any_maximum_met fiveSamples 9 0 7 = false ∧
      (concreteExternals.equilibration_check ["formation_energy"]
        { equilibrated := true, N_equil := 3, converged := true } false).all_equilibrated
        = true ∧
      (concreteExternals.convergence_check ["formation_energy"] 3
        { equilibrated := true, N_equil := 3, converged := true }).all_converged = true ∧
      ((concreteCheck fiveSamples ["formation_energy"])._check concreteExternals
        (sampledAt { equilibrated := true, N_equil := 3, converged := true } 9 7)
        ).m_results.is_complete = true :=
  ⟨by decide, by decide, by decide, by decide,
   check_complete_when_converged concreteExternals
     (concreteCheck fiveSamples ["formation_energy"])
     (sampledAt { equilibrated := true, N_equil := 3, converged := true } 9 7)
     (by decide) (by decide) (by decide) (by decide)⟩

/-- C4: when `convergence_check_params` is empty (and a default-constructed
`CompletionCheckResults` has `is_complete = false`), `_check` sets `is_complete` to
exactly `all_minimums_met && any_maximum_met`, and the equilibration and convergence
result members are the default-constructed ones: neither check is evaluated. -/
theorem check_without_convergence_params
    (X : Externals Cutoff Conv Sampled Samplers Time EI CI)
    (self : CompletionCheck Cutoff Conv EI CI) (sampled_data : Sampled)
    (hempty : self.m_params.convergence_check_params = [])
    (hdefault : X.default_results.is_complete = false) :
    (self._check X sampled_data).m_results.is_complete =
        (X.all_minimums_met self.m_params.cutoff_params (X.get_count sampled_data)
            (X.get_time sampled_data) (X.get_n_samples sampled_data) &&
          X.any_maximum_met self.m_params.cutoff_params (X.get_count sampled_data)
            (X.get_time sampled_data) (X.get_n_samples sampled_data)) ∧
      (self._check X sampled_data).m_results.equilibration_check_results =
        X.default_results.equilibration_check_results ∧
      (self._check X sampled_data).m_results.convergence_check_results =
        X.default_results.convergence_check_results := by
  cases hmin : X.all_minimums_met self.m_params.cutoff_params (X.get_count sampled_data)
      (X.get_time sampled_data) (X.get_n_samples sampled_data) <;>
    cases hmax : X.any_maximum_met self.m_params.cutoff_params (X.get_count sampled_data)
      (X.get_time sampled_data) (X.get_n_samples sampled_data) <;>
    simp [CompletionCheck._check, CompletionCheck.check_maximum, hmin, hmax, hempty,
      hdefault]

/-- Witness of C4: no convergence parameters, minimums met and the maximum of one pass
exceeded. -/
theorem check_without_convergence_params_witness :
    (concreteCheck fiveSamplesOnePass []).m_params.convergence_check_params = [] ∧
      concreteExternals.default_results.is_complete = false ∧
      (((concreteCheck fiveSamplesOnePass [])._check concreteExternals
          (sampledAt { equilibrated := true, N_equil := 0, converged := true } 9 5)
          ).m_results.is_complete =
          (concreteExternals.all_minimums_met fiveSamplesOnePass 9 0 5 &&
            concreteExternals.any_maximum_met fiveSamplesOnePass 9 0 5) ∧
        ((concreteCheck fiveSamplesOnePass [])._check concreteExternals
          (sampledAt { equilibrated := true, N_equil := 0, converged := true } 9 5)
          ).m_results.equilibration_check_results =
          concreteExternals.default_results.equilibration_check_results ∧
        ((concreteCheck fiveSamplesOnePass [])._check concreteExternals
          (sampledAt { equilibrated := true, N_equil := 0, converged := true } 9 5)
          ).m_results.convergence_check_results =
          concreteExternals.default_results.convergence_check_results) :=
  ⟨rfl, rfl,
   check_without_convergence_params concreteExternals
     (concreteCheck fiveSamplesOnePass [])
     (sampledAt { equilibrated := true, N_equil := 0, converged := true } 9 5) rfl rfl⟩

/-- C5: `_check` is idempotent on unchanged data, and its results do not depend on the
results left in `m_results` by an earlier check: checking twice with the same sampled
data gives the object the first check gave, and two checkers with the same parameters
get the same results whatever results they held before. -/
theorem check_idempotent_and_history_free
    (X : Externals Cutoff Conv Sampled Samplers Time EI CI)
    (self : CompletionCheck Cutoff Conv EI CI) (sampled_data : Sampled)
    (earlier : CompletionCheckResults EI CI) :
    (self._check X sampled_data)._check X sampled_data = self._check X sampled_data ∧
      (({ self with m_results := earlier } : CompletionCheck Cutoff Conv EI CI)._check X
          sampled_data).m_results = (self._check X sampled_data).m_results := by
  have hparams : (self._check X sampled_data).m_params = self.m_params := by
    unfold CompletionCheck._check
    dsimp only
    split_ifs <;> rfl
  have hfree : ∀ a b : CompletionCheck Cutoff Conv EI CI, a.m_params = b.m_params →
      a._check X sampled_data = b._check X sampled_data := by
    intro a b hab
    cases a
    cases b
    simp only at hab
    subst hab
    simp [CompletionCheck._check]
  exact ⟨hfree _ _ hparams, congrArg CompletionCheck.m_results (hfree _ _ rfl)⟩

/-- Counterexample to C6 as stated: cutoffs whose minimum pass count (10) exceeds the
maximum pass count (5) are accepted by the constructor, which produces a checker. -/
theorem construct_accepts_minimum_above_maximum :
    tenToFivePasses.minimum_exceeds_maximum = true ∧
      CompletionCheck.construct concreteExternals
          { cutoff_params := tenToFivePasses, convergence_check_params := [] } =
        Except.ok (concreteCheck tenToFivePasses []) :=
  ⟨by decide, rfl⟩

/-- C6 (amended): constructing a `CompletionCheck` never fails and validates nothing:
for all parameters the constructor produces a checker that stores them unchanged, with
default-constructed results. -/
theorem construct_stores_params_unchecked
    (X : Externals Cutoff Conv Sampled Samplers Time EI CI)
    (params : CompletionCheckParams Cutoff Conv) :
    CompletionCheck.construct X params =
      Except.ok { m_params := params, m_results := X.default_results } := by
  rfl

end CompletionCheckTheorems

end Monte2
end CASM

namespace CASM
namespace Monte

section MonteCarloEnumTheorems

variable {Config : Type} [DecidableEq Config]

/-- Every call of `HallOfFame.insert` is recorded, once, in `insert_calls`. -/
theorem HallOfFame.insert_calls_insert (metric : Config → ℚ) (h : HallOfFame Config)
    (obj : Config) :
    (h.insert metric obj).1.insert_calls = h.insert_calls ++ [obj] := by
  unfold HallOfFame.insert
  dsimp only
  repeat' split
  all_goals rfl

/-- C7: when the enum check returns false for a configuration, `MonteCarloEnum::insert`
does not offer it to the hall of fame: the enumerator is unchanged, in particular the
entries, the excluded set, the list of configurations offered to the hall of fame and
the list of metric evaluations; and the result has `success = false`,
`excluded = false`, `score = NaN` and both positions at the hall of fame's `end()`. -/
theorem insert_check_failed (F : ConfigFunctions Config) (self : MonteCarloEnum Config)
    (config : Config) (hcheck : F.enum_check config = false) :
    (self.insert F config).1 = self ∧
      (self.insert F config).1.m_halloffame.m_halloffame =
        self.m_halloffame.m_halloffame ∧
      (self.insert F config).1.m_halloffame.m_exclude = self.m_halloffame.m_exclude ∧
      (self.insert F config).1.m_halloffame.insert_calls =
        self.m_halloffame.insert_calls ∧
      (self.insert F config).1.m_halloffame.metric_evaluations =
        self.m_halloffame.metric_evaluations ∧
      (self.insert F config).2 =
        some { pos := self.m_halloffame.end_, success := false, score := Score.nan,
               excluded := false, excluded_pos := self.m_halloffame.end_ } := by
  simp [MonteCarloEnum.insert, hcheck]

/-- Witness of C7: a configuration with an odd label fails the check of the instance. -/
theorem insert_check_failed_witness :
    toyFunctions.enum_check { volume := 2, label := 5 } = false ∧
      ((toyEnum true true false).insert toyFunctions { volume := 2, label := 5 }).1 =
        toyEnum true true false ∧
      ((toyEnum true true false).insert toyFunctions { volume := 2, label := 5 }).2 =
        some { pos := Iterator.end_, success := false, score := Score.nan,
               excluded := false, excluded_pos := Iterator.end_ } :=
  ⟨by decide,
   (insert_check_failed toyFunctions (toyEnum true true false)
     { volume := 2, label := 5 } (by decide)).1,
   (insert_check_failed toyFunctions (toyEnum true true false)
     { volume := 2, label := 5 } (by decide)).2.2.2.2.2⟩

/-- C8 (what the code does): for a configuration that passes the enum check,
`MonteCarloEnum::insert` hands back the value of `_insert`, and `_insert` returns no
value: the `InsertResult` of `HallOfFame::insert` is dropped. -/
theorem insert_drops_halloffame_result (F : ConfigFunctions Config)
    (self : MonteCarloEnum Config) (config : Config)
    (hcheck : F.enum_check config = true) :
    (self.insert F config).2 = none := by
  simp only [MonteCarloEnum.insert, hcheck, MonteCarloEnum._insert]
  split_ifs <;> simp_all

/-- C8 at a concrete input: the configuration with label 8 passes the check and
`HallOfFame::insert` reports a successful insert at the first position with score 8,
but `MonteCarloEnum::insert` returns no value. -/
theorem insert_drops_halloffame_result_witness :
    toyFunctions.enum_check { volume := 2, label := 8 } = true ∧
      ((toyEnum false false false).m_halloffame.insert toyFunctions.metric
          { volume := 2, label := 8 }).2 =
        { pos := Iterator.elem 0, success := true, score := Score.num 8,
          excluded := false, excluded_pos := Iterator.end_ } ∧
      ((toyEnum false false false).insert toyFunctions { volume := 2, label := 8 }).2 =
        none :=
  ⟨by decide, by decide,
   insert_drops_halloffame_result toyFunctions (toyEnum false false false)
     { volume := 2, label := 8 } (by decide)⟩

/-- C9: `_insert` offers exactly one configuration to the hall of fame, chosen by
policy: the canonical form in the canonical supercell of the primitive of `config` when
`insert_primitive_only()` holds (whatever `insert_canonical()` is), otherwise the
canonical form of `config` in its canonical supercell when `insert_canonical()` holds,
otherwise `config` itself.  The hall of fame after the call is the one a single
`HallOfFame::insert` of that configuration leaves, the list of configurations offered
grows by exactly that configuration, and nothing else of the enumerator changes. -/
theorem halloffame_offer_by_policy (F : ConfigFunctions Config)
    (self : MonteCarloEnum Config) (config : Config) :
    (self._insert F config).1 =
        { self with
          m_halloffame :=
            (self.m_halloffame.insert F.metric
              (if self.insert_primitive_only then
                F.canonical_form (F.in_canonical_supercell (F.primitive config))
              else if self.insert_canonical then
                F.canonical_form (F.in_canonical_supercell config)
              else config)).1 } ∧
      (self._insert F config).1.m_halloffame.insert_calls =
        self.m_halloffame.insert_calls ++
          [if self.insert_primitive_only then
              F.canonical_form (F.in_canonical_supercell (F.primitive config))
            else if self.insert_canonical then
              F.canonical_form (F.in_canonical_supercell config)
            else config] := by
  unfold MonteCarloEnum._insert
  split_ifs <;> exact ⟨rfl, HallOfFame.insert_calls_insert _ _ _⟩

/-- The entries of the hall of fame are not touched by `exclude_range`. -/
theorem HallOfFame.exclude_range_entries (range : List Config) (h : HallOfFame Config) :
    (h.exclude_range range).m_halloffame = h.m_halloffame := by
  unfold HallOfFame.exclude_range
  induction range generalizing h with
  | nil => rfl
  | cons c cs ih =>
    rw [List.foldl_cons, ih]
    rfl

/-- After `exclude_range` the excluded set holds what it held plus the range. -/
theorem HallOfFame.mem_exclude_range (range : List Config) (h : HallOfFame Config)
    (c : Config) :
    c ∈ (h.exclude_range range).m_exclude ↔ c ∈ h.m_exclude ∨ c ∈ range := by
  unfold HallOfFame.exclude_range
  induction range generalizing h with
  | nil => simp
  | cons d ds ih =>
    rw [List.foldl_cons, ih]
    unfold HallOfFame.exclude
    by_cases hd : d ∈ h.m_exclude
    · simp only [hd, if_true, List.mem_cons]
      constructor
      · rintro (hc | hc)
        · exact Or.inl hc
        · exact Or.inr (Or.inr hc)
      · rintro (hc | hc | hc)
        · exact Or.inl hc
        · exact Or.inl (hc ▸ hd)
        · exact Or.inr hc
    · simp only [hd, if_false, List.mem_append, List.mem_singleton, List.mem_cons]
      tauto

/-- C10: after `reset()` the hall of fame holds no entries; when `check_existence()` is
true the excluded set is exactly the set of configurations of the database (earlier
exclusions are dropped); when it is false the excluded set is left unchanged. -/
theorem reset_clears_and_reloads_excluded (self : MonteCarloEnum Config)
    (db : List Config) :
    (self.reset db).m_halloffame.m_halloffame = [] ∧
      (self.reset db).m_halloffame.size = 0 ∧
      (self.check_existence = true →
        ∀ c, c ∈ (self.reset db).m_halloffame.m_exclude ↔ c ∈ db) ∧
      (self.check_existence = false →
        (self.reset db).m_halloffame.m_exclude = self.m_halloffame.m_exclude) := by
  have hentries : (self.reset db).m_halloffame.m_halloffame = [] := by
    unfold MonteCarloEnum.reset
    dsimp only
    split_ifs
    · rw [HallOfFame.exclude_range_entries]
      rfl
    · rfl
  refine ⟨hentries, ?_, ?_, ?_⟩
  · unfold HallOfFame.size
    rw [hentries]
    rfl
  · intro hce c
    have hce2 : self.m_check_existence = true := hce
    simp only [MonteCarloEnum.reset, MonteCarloEnum.check_existence, hce2, if_true]
    rw [HallOfFame.mem_exclude_range]
    simp [HallOfFame.clear_excluded]
  · intro hce
    have hce2 : self.m_check_existence = false := hce
    simp [MonteCarloEnum.reset, MonteCarloEnum.check_existence, hce2, HallOfFame.clear]

/-- C10 at a concrete input with `check_existence()` true: the entry and the earlier
exclusion are gone and the two configurations of the database are excluded. -/
theorem reset_clears_and_reloads_excluded_witness :
    ((toyEnum true true false).reset
        [{ volume := 1, label := 1 }, { volume := 2, label := 2 }]).m_halloffame.size = 0 ∧
      ((toyEnum true true false).reset
        [{ volume := 1, label := 1 }, { volume := 2, label := 2 }]).m_halloffame.m_exclude =
        [{ volume := 1, label := 1 }, { volume := 2, label := 2 }] ∧
      ∀ c, c ∈ ((toyEnum true true false).reset
        [{ volume := 1, label := 1 }, { volume := 2, label := 2 }]).m_halloffame.m_exclude ↔
        c ∈ [({ volume := 1, label := 1 } : ToyConfig), { volume := 2, label := 2 }] :=
  ⟨by decide, by decide,
   (reset_clears_and_reloads_excluded (toyEnum true true false)
     [{ volume := 1, label := 1 }, { volume := 2, label := 2 }]).2.2.1 rfl⟩

end MonteCarloEnumTheorems

end Monte
end CASM

namespace CASM
namespace Monte

/-- C11: `GrandCanonical::check` returns true for every event whose change of grand
canonical potential `ΔE_potential = ΔE_formation − Σ_k μ_k·Δn_k` is at most zero, at
every temperature and whatever random number is drawn. -/
theorem check_accepts_nonpositive_dEpot (boltzmann : ℚ → ℚ → ℚ) (self : GrandCanonical)
    (event : GrandCanonicalEvent) (rand : ℚ)
    (hdE : event.dEf -
      (List.zipWith (fun mu dn => mu * dn) self.m_condition.chem_pot event.dN).sum ≤ 0) :
    self.check boltzmann event rand = true := by
  unfold GrandCanonical.check GrandCanonicalEvent.dEpot
  simp only [hdE, if_true]

/-- Witness of C11: an event with `ΔE_formation = 1`, `μ = 2`, `Δn = 1`, so
`ΔE_potential = −1`, is accepted at temperature zero with a never-accepting Boltzmann
factor and the largest random numbers. -/
theorem check_accepts_nonpositive_dEpot_witness :
    (toyEvent 1 1).dEf -
        (List.zipWith (fun mu dn => mu * dn) (toyGrandCanonical 0 2).m_condition.chem_pot
          (toyEvent 1 1).dN).sum ≤ 0 ∧
      (toyGrandCanonical 0 2).check (fun _ _ => 0) (toyEvent 1 1) 1 = true :=
  ⟨by norm_num [toyEvent, toyGrandCanonical],
   check_accepts_nonpositive_dEpot (fun _ _ => 0) (toyGrandCanonical 0 2) (toyEvent 1 1) 1
     (by norm_num [toyEvent, toyGrandCanonical])⟩

/-- C12: `GrandCanonical::reject` is a no-op: for every state and every event the
occupation and the cached totals (formation energy, potential energy, correlations,
composition, order parameters) are the same after `reject` as before. -/
theorem reject_is_noop (self : GrandCanonical) (event : GrandCanonicalEvent) :
    self.reject event = self ∧
      (self.reject event).occupation = self.occupation ∧
      (self.reject event).formation_energy = self.formation_energy ∧
      (self.reject event).potential_energy = self.potential_energy ∧
      (self.reject event).corr = self.corr ∧
      (self.reject event).comp_n = self.comp_n ∧
      (self.reject event).eta = self.eta :=
  ⟨rfl, rfl, rfl, rfl, rfl, rfl, rfl⟩

end Monte
end CASM

namespace CASM
namespace Monte

section HallOfFameTheorems

variable {Config : Type} [DecidableEq Config]

/-- An entry that beats every entry of a list is put in front of it. -/
theorem insert_sorted_of_better {C : Type} (score : ℚ) (obj : C) (l : List (ℚ × C))
    (hbetter : ∀ e ∈ l, e.1 < score) :
    insert_sorted score obj l = (score, obj) :: l := by
  cases l with
  | nil => rfl
  | cons e es =>
    have he : e.1 < score := hbetter e (List.mem_cons_self _ _)
    simp [insert_sorted, he]

/-- Truncating after appending a truncated list is truncating after appending the
list. -/
theorem take_append_take {α : Type} (K : Nat) (A B : List α) :
    (A ++ B.take K).take K = (A ++ B).take K := by
  rw [List.take_append_eq_append_take, List.take_append_eq_append_take, List.take_take,
    Nat.min_eq_left (Nat.sub_le _ _)]

/-- Inserting a configuration that is not excluded, is no entry yet and beats every
entry puts it in front and truncates to the capacity; nothing else changes but the
history. -/
theorem HallOfFame.insert_of_better (metric : Config → ℚ) (h : HallOfFame Config)
    (obj : Config) (hK : 0 < h.m_max_size)
    (hexcl : (h.m_check_exclusion && decide (obj ∈ h.m_exclude)) = false)
    (hbetter : ∀ e ∈ h.m_halloffame, e.1 < metric obj)
    (hnew : ∀ e ∈ h.m_halloffame, e.2 ≠ obj) :
    (h.insert metric obj).1.m_halloffame =
        ((metric obj, obj) :: h.m_halloffame).take h.m_max_size ∧
      (h.insert metric obj).1.m_exclude = h.m_exclude ∧
      (h.insert metric obj).1.m_check_exclusion = h.m_check_exclusion ∧
      (h.insert metric obj).1.m_max_size = h.m_max_size := by
  have hfind : h.m_halloffame.find? (fun e => decide (e.2 = obj)) = none := by
    rw [List.find?_eq_none]
    intro e he
    simpa using hnew e he
  have hcomp : (decide (h.m_halloffame.length < h.m_max_size) ||
      (match h.m_halloffame.get? (h.m_max_size - 1) with
        | some kth => decide (0 < h.m_max_size) && decide (kth.1 < metric obj)
        | none => false)) = true := by
    by_cases hlen : h.m_halloffame.length < h.m_max_size
    · simp [hlen]
    · have hlt : h.m_max_size - 1 < h.m_halloffame.length := by omega
      have hget : h.m_halloffame.get? (h.m_max_size - 1) =
          some (h.m_halloffame.get ⟨h.m_max_size - 1, hlt⟩) := List.get?_eq_get hlt
      have hb := hbetter _ (List.get_mem h.m_halloffame (h.m_max_size - 1) hlt)
      rw [hget]
      simp only [hK, decide_True, Bool.true_and, Bool.or_eq_true, decide_eq_true_eq]
      exact Or.inr hb
  unfold HallOfFame.insert
  simp only [hexcl, hfind, hcomp, insert_sorted_of_better _ _ _ hbetter]
  simp

/-- Inserting configurations in increasing order of score, each better than every
entry, none excluded: the entries become the inserted configurations, last first, in
front of the old entries, truncated to the capacity. -/
theorem HallOfFame.insert_increasing (metric : Config → ℚ) (cs : List Config)
    (h : HallOfFame Config) (hK : 0 < h.m_max_size)
    (hcap : h.m_halloffame.length ≤ h.m_max_size)
    (hexcl : ∀ c ∈ cs, (h.m_check_exclusion && decide (c ∈ h.m_exclude)) = false)
    (hbetter : ∀ c ∈ cs, ∀ e ∈ h.m_halloffame, e.1 < metric c ∧ e.2 ≠ c)
    (hinc : List.Pairwise (fun a b => metric a < metric b) cs) :
    (cs.foldl (fun h c => (h.insert metric c).1) h).m_halloffame =
      ((cs.reverse.map fun c => (metric c, c)) ++ h.m_halloffame).take h.m_max_size := by
  induction cs generalizing h with
  | nil =>
    simp only [List.foldl_nil, List.reverse_nil, List.map_nil, List.nil_append]
    exact (List.take_of_length_le hcap).symm
  | cons c rest ih =>
    obtain ⟨hent, hex, hchk, hmax⟩ :=
      HallOfFame.insert_of_better metric h c hK (hexcl c (List.mem_cons_self _ _))
        (fun e he => (hbetter c (List.mem_cons_self _ _) e he).1)
        (fun e he => (hbetter c (List.mem_cons_self _ _) e he).2)
    rw [List.pairwise_cons] at hinc
    have hstep := ih (h.insert metric c).1 (by rw [hmax]; exact hK)
      (by rw [hent, hmax]; exact List.length_take_le _ _)
      (by
        intro c' hc'
        rw [hchk, hex]
        exact hexcl c' (List.mem_cons_of_mem _ hc'))
      (by
        intro c' hc' e he
        rw [hent] at he
        have he' := List.mem_of_mem_take he
        rcases List.mem_cons.mp he' with heq | hmem
        · subst heq
          have hlt := hinc.1 c' hc'
          refine ⟨hlt, ?_⟩
          intro hcc
          simp only at hcc
          rw [hcc] at hlt
          exact lt_irrefl _ hlt
        · exact hbetter c' (List.mem_cons_of_mem _ hc') e hmem)
      hinc.2
    rw [List.foldl_cons, hstep, hent, hmax, take_append_take]
    simp [List.reverse_cons, List.map_append, List.append_assoc]

/-- C13: for every capacity `K ≥ 1`, inserting `K+1` configurations with strictly
increasing scores (hence pairwise distinct), none of them excluded, into an empty hall
of fame leaves exactly `K` entries: the `K` highest-scoring configurations, ordered by
descending score. -/
theorem halloffame_keeps_top_K (metric : Config → ℚ) (h : HallOfFame Config) (K : Nat)
    (c0 : Config) (cs : List Config) (hK : 1 ≤ K) (hcap : h.m_max_size = K)
    (hempty : h.m_halloffame = [])
    (hexcl : ∀ c ∈ c0 :: cs, (h.m_check_exclusion && decide (c ∈ h.m_exclude)) = false)
    (hlen : cs.length = K)
    (hinc : List.Pairwise (fun a b => metric a < metric b) (c0 :: cs)) :
    ((c0 :: cs).foldl (fun h c => (h.insert metric c).1) h).m_halloffame =
        (cs.reverse.map fun c => (metric c, c)) ∧
      ((c0 :: cs).foldl (fun h c => (h.insert metric c).1) h).m_halloffame.length = K ∧
      List.Pairwise (fun a b => b.1 < a.1)
        ((c0 :: cs).foldl (fun h c => (h.insert metric c).1) h).m_halloffame := by
  have hentries :
      ((c0 :: cs).foldl (fun h c => (h.insert metric c).1) h).m_halloffame =
        (cs.reverse.map fun c => (metric c, c)) := by
    rw [HallOfFame.insert_increasing metric (c0 :: cs) h (by omega)
      (by rw [hempty]; exact Nat.zero_le _) hexcl
      (by
        intro c _ e he
        rw [hempty] at he
        exact absurd he (List.not_mem_nil e))
      hinc]
    rw [hempty, List.append_nil, List.reverse_cons, List.map_append,
      List.take_append_eq_append_take, hcap]
    have hl : (cs.reverse.map fun c => (metric c, c)).length = K := by
      simp [hlen]
    rw [List.take_of_length_le (le_of_eq hl), hl, Nat.sub_self, List.take_zero,
      List.append_nil]
  refine ⟨hentries, ?_, ?_⟩
  · rw [hentries]
    simp [hlen]
  · rw [hentries, List.pairwise_map, List.pairwise_reverse]
    exact (List.pairwise_cons.mp hinc).2

/-- Witness of C13: capacity 2, configurations 1, 2, 3 scored by their value: the hall
of fame ends with 3 and 2, in this order. -/
theorem halloffame_keeps_top_K_witness :
    List.Pairwise (fun a b : Nat => (a : ℚ) < (b : ℚ)) [1, 2, 3] ∧
      ([1, 2, 3].foldl (fun h c => (h.insert (fun c : Nat => (c : ℚ)) c).1)
          (emptyHallOfFame 2)).m_halloffame = [(3, 3), (2, 2)] :=
  ⟨by decide,
   (halloffame_keeps_top_K (fun c : Nat => (c : ℚ)) (emptyHallOfFame 2) 2 1 [2, 3]
     (by decide) rfl rfl (by decide) rfl (by decide)).1⟩

end HallOfFameTheorems

end Monte
end CASM

namespace CASM
namespace Monte

section GrandCanonicalSettingsTheorems

variable {Json Cond : Type}

/-- C15: constructing `GrandCanonicalSettings` for a `PrimClex` without composition
axes fails, so no settings object exists, and when the base class constructor has
succeeded the failure is the runtime error "No composition axes selected."; when
composition axes are present the check raises nothing: the outcome is that of the
base class constructor. -/
theorem construct_requires_composition_axes
    (base : Except Failure (EquilibriumMonteSettings Json))
    (b : EquilibriumMonteSettings Json) :
    (∀ s, GrandCanonicalSettings.construct base false ≠ Except.ok s) ∧
      GrandCanonicalSettings.construct (Except.ok b) false =
        Except.error (Failure.runtime_error "No composition axes selected.") ∧
      GrandCanonicalSettings.construct (Except.ok b) true = Except.ok { base := b } ∧
      (∀ e, GrandCanonicalSettings.construct
          (Except.error e : Except Failure (EquilibriumMonteSettings Json)) true =
        Except.error e) := by
  refine ⟨?_, rfl, rfl, fun _ => rfl⟩
  intro s
  cases base <;> simp [GrandCanonicalSettings.construct]

/-- C16: `initial_conditions` returns the conditions read from
`["driver"]["initial_conditions"]` when the drive mode is INCREMENTAL, element 0 of
`custom_conditions` when it is CUSTOM (so the first element whenever
`custom_conditions` returns a non-empty list), and raises the runtime error
"ERROR: Invalid drive mode." for every other drive mode. -/
theorem initial_conditions_by_drive_mode (from_json : Json → Except Failure Cond)
    (self : GrandCanonicalSettings Json) :
    (self.base.drive_mode = DRIVE_MODE.INCREMENTAL →
        self.initial_conditions from_json = self._conditions from_json "initial_conditions" ∧
        self.initial_conditions from_json =
          from_json (self.base.driver "initial_conditions")) ∧
      (self.base.drive_mode = DRIVE_MODE.CUSTOM →
        self.initial_conditions from_json =
          (match self.custom_conditions from_json with
            | Except.ok cond => vector_front cond
            | Except.error e => Except.error e) ∧
        ∀ c cs, self.custom_conditions from_json = Except.ok (c :: cs) →
          self.initial_conditions from_json = Except.ok c) ∧
      (self.base.drive_mode ≠ DRIVE_MODE.INCREMENTAL →
        self.base.drive_mode ≠ DRIVE_MODE.CUSTOM →
        self.initial_conditions from_json =
          Except.error (Failure.runtime_error "ERROR: Invalid drive mode.")) := by
  refine ⟨?_, ?_, ?_⟩
  · intro hmode
    have h1 : self.initial_conditions from_json =
        self._conditions from_json "initial_conditions" := by
      simp [GrandCanonicalSettings.initial_conditions, hmode]
    refine ⟨h1, ?_⟩
    rw [h1]
    unfold GrandCanonicalSettings._conditions GrandCanonicalSettings._conditions_json
    cases h : from_json (self.base.driver "initial_conditions") with
    | ok r => rfl
    | error e => cases e <;> rfl
  · intro hmode
    have h1 : self.initial_conditions from_json =
        (match self.custom_conditions from_json with
          | Except.ok cond => vector_front cond
          | Except.error e => Except.error e) := by
      simp [GrandCanonicalSettings.initial_conditions, hmode]
    refine ⟨h1, ?_⟩
    intro c cs hcustom
    rw [h1, hcustom]
    rfl
  · intro h1 h2
    simp [GrandCanonicalSettings.initial_conditions, h1, h2]

/-- C16 at concrete inputs: INCREMENTAL reads 300 from `["driver"]["initial_conditions"]`,
CUSTOM with the list 310, 320 returns 310, and a third mode raises the error. -/
theorem initial_conditions_by_drive_mode_witness :
    (toySettings DRIVE_MODE.INCREMENTAL []).initial_conditions toy_from_json =
        Except.ok 300 ∧
      (toySettings DRIVE_MODE.CUSTOM [310, 320]).custom_conditions toy_from_json =
        Except.ok [310, 320] ∧
      (toySettings DRIVE_MODE.CUSTOM [310, 320]).initial_conditions toy_from_json =
        Except.ok 310 ∧
      (toySettings (DRIVE_MODE.other 2) [310]).initial_conditions toy_from_json =
        Except.error (Failure.runtime_error "ERROR: Invalid drive mode.") :=
  ⟨rfl, rfl,
   ((initial_conditions_by_drive_mode toy_from_json
      (toySettings DRIVE_MODE.CUSTOM [310, 320])).2.1 rfl).2 310 [320] rfl,
   (initial_conditions_by_drive_mode toy_from_json
      (toySettings (DRIVE_MODE.other 2) [310])).2.2 (by decide) (by decide)⟩

end GrandCanonicalSettingsTheorems

end Monte
end CASM

namespace CASM
namespace Monte

/-- The loop of `CovEvaluator` accumulates the three sums over the first `n`
coefficients. -/
theorem CovEvaluator.sums_eq (X Y : List ℚ) (n : Nat) :
    CovEvaluator.sums X Y n =
      (∑ i in Finset.range n, X.getD i 0, ∑ i in Finset.range n, Y.getD i 0,
        ∑ i in Finset.range n, X.getD i 0 * Y.getD i 0) := by
  unfold CovEvaluator.sums
  induction n with
  | zero => simp
  | succ n ih =>
    rw [List.range_succ, List.foldl_append, ih]
    simp [Finset.sum_range_succ]

/-- C17: for two samplers with `N ≥ 1` observations `x_i`, `y_i` from index `N_equil`
onward, `CovEvaluator` returns `(Σ x_i·y_i − (Σ x_i)(Σ y_i)/N)/N`, which equals
`<X·Y> − <X>·<Y>`, the mean of the products minus the product of the means over that
suffix (in exact arithmetic). -/
theorem cov_evaluator_formula (obs1 obs2 : List ℚ) (N_equil N : Nat)
    (h1 : obs1.length = N_equil + N) (h2 : obs2.length = N_equil + N) (hN : 1 ≤ N) :
    CovEvaluator.call obs1 obs2 N_equil =
        ((∑ i in Finset.range N, obs1.getD (N_equil + i) 0 * obs2.getD (N_equil + i) 0) -
          (∑ i in Finset.range N, obs1.getD (N_equil + i) 0) *
            (∑ i in Finset.range N, obs2.getD (N_equil + i) 0) / N) / N ∧
      CovEvaluator.call obs1 obs2 N_equil =
        (∑ i in Finset.range N, obs1.getD (N_equil + i) 0 * obs2.getD (N_equil + i) 0) / N -
          ((∑ i in Finset.range N, obs1.getD (N_equil + i) 0) / N) *
            ((∑ i in Finset.range N, obs2.getD (N_equil + i) 0) / N) := by
  have hseg : ∀ obs : List ℚ, obs.length = N_equil + N →
      (obs.drop N_equil).take (obs.length - N_equil) = obs.drop N_equil := by
    intro obs h
    apply List.take_of_length_le
    simp
  have hlen : (obs1.drop N_equil).length = N := by
    rw [List.length_drop, h1]
    omega
  have hget : ∀ (obs : List ℚ) (i : Nat),
      (obs.drop N_equil).getD i 0 = obs.getD (N_equil + i) 0 := by
    intro obs i
    simp [List.getD_eq_getElem?_getD, List.getElem?_drop]
  have hcall : CovEvaluator.call obs1 obs2 N_equil =
      ((∑ i in Finset.range N, obs1.getD (N_equil + i) 0 * obs2.getD (N_equil + i) 0) -
        (∑ i in Finset.range N, obs1.getD (N_equil + i) 0) *
          (∑ i in Finset.range N, obs2.getD (N_equil + i) 0) / N) / N := by
    unfold CovEvaluator.call
    simp only [hseg obs1 h1, hseg obs2 h2, hlen, CovEvaluator.sums_eq, hget]
  refine ⟨hcall, ?_⟩
  rw [hcall]
  have hN0 : (N : ℚ) ≠ 0 := by
    have : 0 < N := hN
    exact_mod_cast this.ne'
  field_simp
  ring

/-- Witness of C17: one equilibration sample excluded, observations 1, 3 and 2, 6 left:
the covariance is `(1·2 + 3·6 − 4·8/2)/2 = 2`. -/
theorem cov_evaluator_formula_witness :
    [(10 : ℚ), 1, 3].length = 1 + 2 ∧ [(20 : ℚ), 2, 6].length = 1 + 2 ∧
      CovEvaluator.call [10, 1, 3] [20, 2, 6] 1 =
        ((∑ i in Finset.range 2,
            [(10 : ℚ), 1, 3].getD (1 + i) 0 * [(20 : ℚ), 2, 6].getD (1 + i) 0) -
          (∑ i in Finset.range 2, [(10 : ℚ), 1, 3].getD (1 + i) 0) *
            (∑ i in Finset.range 2, [(20 : ℚ), 2, 6].getD (1 + i) 0) / (2 : Nat)) /
          (2 : Nat) ∧
      ((∑ i in Finset.range 2,
            [(10 : ℚ), 1, 3].getD (1 + i) 0 * [(20 : ℚ), 2, 6].getD (1 + i) 0) -
          (∑ i in Finset.range 2, [(10 : ℚ), 1, 3].getD (1 + i) 0) *
            (∑ i in Finset.range 2, [(20 : ℚ), 2, 6].getD (1 + i) 0) / (2 : Nat)) /
          (2 : Nat) = 2 :=
  ⟨rfl, rfl,
   (cov_evaluator_formula [10, 1, 3] [20, 2, 6] 1 2 rfl rfl (by decide)).1,
   by norm_num [Finset.sum_range_succ]⟩

end Monte
end CASM

namespace CASM
namespace Monte

/-- Counterexample to C14 as stated: with the measurements `formation_energy` and the
query `bad`, whose evaluated width (2) differs from its column headers (1), the call
throws after it has written the `formation_energy` sampler to the output. -/
theorem samplers_partial_output_on_error :
    CanonicalSettings.samplers toySamplerSettings
        [{ quantity := "formation_energy", precision := none },
         { quantity := "bad", precision := none }] =
      ([("formation_energy",
          MonteSampler.ScalarMonteSampler "formation_energy" "formation_energy" none 1
            1000)],
        Except.error "Error constructing Monte Carlo samplers from query: 'bad'") := by
  rfl

/-- The loop of `samplers` on a list whose first failing measurement is `it`: what the
measurements before `it` write and what `it` writes before it throws is appended to
the output, then the exception leaves the loop. -/
theorem CanonicalSettings.samplers_loop_first_failure (S : SamplerSettings)
    (pre : List Measurement) (it : Measurement) (post : List Measurement) (e : String)
    (result : List (String × MonteSampler))
    (hpre : ∀ m ∈ pre, (CanonicalSettings.samplers_of S m).2 = Except.ok ())
    (hfail : (CanonicalSettings.samplers_of S it).2 = Except.error e) :
    CanonicalSettings.samplers_loop S (pre ++ it :: post) result =
      (result ++ (pre.map fun m => (CanonicalSettings.samplers_of S m).1).flatten ++
          (CanonicalSettings.samplers_of S it).1,
        Except.error e) := by
  induction pre generalizing result with
  | nil =>
    cases hit : CanonicalSettings.samplers_of S it with
    | mk w o =>
      rw [hit] at hfail
      simp only at hfail
      subst hfail
      simp [CanonicalSettings.samplers_loop, hit]
  | cons m ms ih =>
    have hm := hpre m (List.mem_cons_self _ _)
    cases hsm : CanonicalSettings.samplers_of S m with
    | mk w o =>
      rw [hsm] at hm
      simp only at hm
      subst hm
      have hms := ih (result ++ w) (fun m' hm' => hpre m' (List.mem_cons_of_mem _ hm'))
      simp [CanonicalSettings.samplers_loop, hsm, hms, List.append_assoc]

/-- What a measurement has written when its loop body throws: nothing, unless the
measurement is `order_parameter` and the call of `make_order_parameter_subspaces()`
throws, after the samplers of the order parameters have been written. -/
theorem CanonicalSettings.samplers_of_written_on_error (S : SamplerSettings)
    (it : Measurement) (e : String) (order_parameter : Option Nat)
    (horder : S.make_order_parameter = Except.ok order_parameter)
    (hfail : (CanonicalSettings.samplers_of S it).2 = Except.error e) :
    (it.quantity ≠ "order_parameter" → (CanonicalSettings.samplers_of S it).1 = []) ∧
      (it.quantity = "order_parameter" →
        S.make_order_parameter_subspaces = Except.error e ∧
          (CanonicalSettings.samplers_of S it).1 =
            CanonicalSettings.order_parameter_samplers S it (order_parameter.getD 0)) := by
  unfold CanonicalSettings.samplers_of at hfail ⊢
  dsimp only at hfail ⊢
  by_cases hs : it.quantity ∈ ["formation_energy", "potential_energy"]
  · rw [if_pos hs] at hfail
    exact absurd hfail (by simp)
  · rw [if_neg hs] at hfail ⊢
    by_cases hv : it.quantity ∈ ["non_zero_eci_correlations", "order_parameter"]
    · rw [if_pos hv] at hfail ⊢
      by_cases ho : it.quantity = "order_parameter"
      · have hn : it.quantity ≠ "non_zero_eci_correlations" := by
          rw [ho]
          decide
        rw [if_neg hn, if_pos ho] at hfail ⊢
        simp only [List.nil_append] at hfail ⊢
        unfold CanonicalSettings._make_order_parameter_samplers at hfail ⊢
        rw [horder] at hfail ⊢
        cases order_parameter
        all_goals
          dsimp only [Option.getD] at hfail ⊢
          cases hsub : S.make_order_parameter_subspaces with
          | error e' =>
            rw [hsub] at hfail
            simp only [Except.error.injEq] at hfail
            subst hfail
            exact ⟨fun h => absurd ho h, fun _ => ⟨rfl, rfl⟩⟩
          | ok v =>
            rw [hsub] at hfail
            exact absurd hfail (by simp)
      · have hn : it.quantity = "non_zero_eci_correlations" := by
          simp only [List.mem_cons, List.mem_singleton, List.not_mem_nil, or_false] at hv
          rcases hv with h | h
          · exact h
          · exact absurd h ho
        rw [if_pos hn, if_neg ho] at hfail ⊢
        refine ⟨fun _ => ?_, fun h => absurd h ho⟩
        unfold CanonicalSettings._make_non_zero_eci_correlations_samplers at hfail ⊢
        cases heci : S.eci_index with
        | error e' => rfl
        | ok index =>
          rw [heci] at hfail
          exact absurd hfail (by simp)
    · rw [if_neg hv] at hfail ⊢
      have ho : it.quantity ≠ "order_parameter" := by
        intro h
        apply hv
        rw [h]
        decide
      refine ⟨fun _ => ?_, fun h => absurd h ho⟩
      unfold CanonicalSettings._make_query_samplers at hfail ⊢
      dsimp only at hfail ⊢
      cases hquery : S.query it.quantity with
      | error e' => rfl
      | ok t =>
        rw [hquery] at hfail
        dsimp only at hfail ⊢
        by_cases ht : (t.test_size != t.col.length) = true
        · rw [if_pos ht]
        · rw [if_neg ht] at hfail
          exact absurd hfail (by simp)

/-- C14 (amended): `samplers` is not all-or-nothing.  When the first measurement whose
loop body raises an error is `it`, the call has written the samplers of the
measurements processed before `it` (the measurements of the settings in order, then
the missing required ones), followed by what `it` itself wrote before its error, and
nothing for the measurements after it; the error is rethrown.  What `it` wrote is
nothing, unless `it` is `order_parameter` and `make_order_parameter_subspaces()`
throws: the samplers of the order parameters are then written. -/
theorem samplers_writes_until_first_error (S : SamplerSettings)
    (measurements pre : List Measurement) (it : Measurement) (post : List Measurement)
    (e : String) (order_parameter : Option Nat)
    (horder : S.make_order_parameter = Except.ok order_parameter)
    (hsplit : CanonicalSettings.t_measurements order_parameter.isSome measurements =
      pre ++ it :: post)
    (hpre : ∀ m ∈ pre, (CanonicalSettings.samplers_of S m).2 = Except.ok ())
    (hfail : (CanonicalSettings.samplers_of S it).2 = Except.error e) :
    CanonicalSettings.samplers S measurements =
        ((pre.map fun m => (CanonicalSettings.samplers_of S m).1).flatten ++
            (CanonicalSettings.samplers_of S it).1,
          Except.error e) ∧
      (it.quantity ≠ "order_parameter" → (CanonicalSettings.samplers_of S it).1 = []) ∧
      (it.quantity = "order_parameter" →
        S.make_order_parameter_subspaces = Except.error e ∧
          (CanonicalSettings.samplers_of S it).1 =
            CanonicalSettings.order_parameter_samplers S it (order_parameter.getD 0)) := by
  refine ⟨?_, CanonicalSettings.samplers_of_written_on_error S it e order_parameter horder
    hfail⟩
  unfold CanonicalSettings.samplers
  rw [horder]
  dsimp only
  rw [hsplit, CanonicalSettings.samplers_loop_first_failure S pre it post e [] hpre hfail]
  simp

/-- Witness of C14 (amended): the settings with an order parameter of two components
whose subspaces cannot be read, and the measurement `formation_energy`; the failing
measurement is the added `order_parameter`, after `formation_energy` and the added
`potential_energy`, and it has written its two order parameter samplers. -/
theorem samplers_writes_until_first_error_witness :
    toyOrderParameterSettings.make_order_parameter = Except.ok (some 2) ∧
      CanonicalSettings.t_measurements true
          [{ quantity := "formation_energy", precision := none }] =
        [{ quantity := "formation_energy", precision := none },
         { quantity := "potential_energy", precision := none }] ++
          { quantity := "order_parameter", precision := none } :: [] ∧
      (CanonicalSettings.samplers_of toyOrderParameterSettings
          { quantity := "order_parameter", precision := none }).2 =
        Except.error "cannot read subspaces" ∧
      CanonicalSettings.samplers toyOrderParameterSettings
          [{ quantity := "formation_energy", precision := none }] =
        (([{ quantity := "formation_energy", precision := none },
            { quantity := "potential_energy", precision := none }].map fun m =>
              (CanonicalSettings.samplers_of toyOrderParameterSettings m).1).flatten ++
            (CanonicalSettings.samplers_of toyOrderParameterSettings
              { quantity := "order_parameter", precision := none }).1,
          Except.error "cannot read subspaces") ∧
      (CanonicalSettings.samplers_of toyOrderParameterSettings
          { quantity := "order_parameter", precision := none }).1 =
        CanonicalSettings.order_parameter_samplers toyOrderParameterSettings
          { quantity := "order_parameter", precision := none } 2 :=
  ⟨rfl, by decide, rfl,
   (samplers_writes_until_first_error toyOrderParameterSettings
     [{ quantity := "formation_energy", precision := none }]
     [{ quantity := "formation_energy", precision := none },
      { quantity := "potential_energy", precision := none }]
     { quantity := "order_parameter", precision := none } []
     "cannot read subspaces" (some 2) rfl (by decide)
     (by
       intro m hm
       simp only [List.mem_cons, List.mem_singleton, List.not_mem_nil, or_false] at hm
       rcases hm with rfl | rfl <;> rfl)
     rfl).1,
   ((samplers_writes_until_first_error toyOrderParameterSettings
     [{ quantity := "formation_energy", precision := none }]
     [{ quantity := "formation_energy", precision := none },
      { quantity := "potential_energy", precision := none }]
     { quantity := "order_parameter", precision := none } []
     "cannot read subspaces" (some 2) rfl (by decide)
     (by
       intro m hm
       simp only [List.mem_cons, List.mem_singleton, List.not_mem_nil, or_false] at hm
       rcases hm with rfl | rfl <;> rfl)
     rfl).2.2 rfl).2⟩

end Monte

/-- C18 (what the code does): `ConfigMapper::strict()` is the logical conjunction
`options && StrucMapper::strict`, so it returns true for every non-zero `options`,
whether or not the bit of the (non-zero) flag `strict` is set in it. -/
theorem strict_true_for_nonzero_options (options StrucMapper_strict : Int)
    (hopt : options ≠ 0) (hflag : StrucMapper_strict ≠ 0) :
    ConfigMapper.strict options StrucMapper_strict = true := by
  simp [ConfigMapper.strict, hopt, hflag]

/-- C18 at a concrete input: with the flags `rotate = 1` and `strict = 2`, the options
`rotate` alone do not contain the flag `strict`, yet `strict()` returns true. -/
theorem strict_true_for_nonzero_options_witness :
    (1 : Int) ≠ 0 ∧ (2 : Int) ≠ 0 ∧ ConfigMapper.flag_is_set 1 2 = false ∧
      ConfigMapper.strict 1 2 = true :=
  ⟨by decide, by decide, by decide,
   strict_true_for_nonzero_options 1 2 (by decide) (by decide)⟩

end CASM

namespace CASM
namespace Kinetics

/-- One step of `make_attachable` changes at most the from-site of its trajectory. -/
theorem make_attachable_step_other (scel : Supercell) (bg_config result : Configuration)
    (traj : SpecieTrajectory) (site : Nat)
    (hsite : scel.linear_index traj.from_.uccoord ≠ site) :
    (make_attachable_step scel bg_config result traj).occ site = result.occ site := by
  unfold make_attachable_step
  dsimp only
  split_ifs
  · simp [Configuration.set_occ, Ne.symm hsite]
  · rfl
  · rfl

/-- The loop of `make_attachable` leaves a site alone that is the from-site of none of
the trajectories. -/
theorem make_attachable_loop_other (scel : Supercell) (bg_config : Configuration)
    (trajs : List SpecieTrajectory) (result : Configuration) (site : Nat)
    (hsite : ∀ traj ∈ trajs, scel.linear_index traj.from_.uccoord ≠ site) :
    (trajs.foldl (make_attachable_step scel bg_config) result).occ site =
      result.occ site := by
  induction trajs generalizing result with
  | nil => rfl
  | cons t ts ih =>
    rw [List.foldl_cons, ih _ (fun traj h => hsite traj (List.mem_cons_of_mem _ h)),
      make_attachable_step_other scel bg_config result t site
        (hsite t (List.mem_cons_self _ _))]

/-- The loop of `make_attachable` at the from-site of one of its trajectories, when the
trajectories start at pairwise distinct sites: the from-occupant if it differs from
the background occupant and is below the maximum allowed occupation, otherwise what
was there. -/
theorem make_attachable_loop_from_site (scel : Supercell) (bg_config : Configuration)
    (trajs : List SpecieTrajectory) (result : Configuration) (traj : SpecieTrajectory)
    (hdistinct : (trajs.map fun t => scel.linear_index t.from_.uccoord).Nodup)
    (hmem : traj ∈ trajs) :
    (trajs.foldl (make_attachable_step scel bg_config) result).occ
        (scel.linear_index traj.from_.uccoord) =
      if bg_config.occ (scel.linear_index traj.from_.uccoord) ≠ traj.from_.occ ∧
          traj.from_.occ < scel.max_allowed_occupation (scel.linear_index traj.from_.uccoord)
      then traj.from_.occ
      else result.occ (scel.linear_index traj.from_.uccoord) := by
  induction trajs generalizing result with
  | nil => exact absurd hmem (List.not_mem_nil _)
  | cons t ts ih =>
    rw [List.map_cons, List.nodup_cons] at hdistinct
    rw [List.foldl_cons]
    rcases List.mem_cons.mp hmem with heq | hts
    · subst heq
      rw [make_attachable_loop_other scel bg_config ts _ _ (by
        intro t' ht' h
        exact hdistinct.1 (h ▸ List.mem_map_of_mem _ ht'))]
      unfold make_attachable_step
      dsimp only
      by_cases h1 : bg_config.occ (scel.linear_index traj.from_.uccoord) = traj.from_.occ
      · simp [h1]
      · by_cases h2 : traj.from_.occ <
            scel.max_allowed_occupation (scel.linear_index traj.from_.uccoord)
        · simp [h1, h2, Configuration.set_occ]
        · simp [h1, h2]
    · rw [ih _ hdistinct.2 hts]
      have hne : scel.linear_index t.from_.uccoord ≠
          scel.linear_index traj.from_.uccoord := by
        intro h
        exact hdistinct.1 (h ▸ List.mem_map_of_mem _ hts)
      rw [make_attachable_step_other scel bg_config result t _ hne]

/-- Counterexample to C19 as stated: on a line of sites whose maximum allowed
occupation is 1, a trajectory starting at site 0 with from-occupant 5 over a
background with occupant 0 there: the result keeps occupant 0 at the from-site. -/
theorem make_attachable_keeps_invalid_occupant :
    (hop 0 1 5).from_.occ = 5 ∧
      (make_attachable lineSupercell { specie_traj := [hop 0 1 5] } emptyLine).occ
        (lineSupercell.linear_index (hop 0 1 5).from_.uccoord) = 0 := by
  decide

/-- C19 (amended): for a diffusion transformation whose trajectories start at pairwise
distinct sites of the supercell, `make_attachable` returns `bg_config` with, at the
from-site of every trajectory whose from-occupant is below the maximum allowed
occupation of the site, that from-occupant; the from-site of a trajectory whose
from-occupant is above the maximum allowed occupation keeps the occupant of
`bg_config`; and so does every site that is not a from-site. -/
theorem make_attachable_sets_valid_from_occupants (scel : Supercell)
    (diff_trans : DiffusionTransformation) (bg_config : Configuration)
    (hdistinct :
      (diff_trans.specie_traj.map fun t => scel.linear_index t.from_.uccoord).Nodup) :
    (∀ traj ∈ diff_trans.specie_traj,
        traj.from_.occ <
          scel.max_allowed_occupation (scel.linear_index traj.from_.uccoord) →
        (make_attachable scel diff_trans bg_config).occ
          (scel.linear_index traj.from_.uccoord) = traj.from_.occ) ∧
      (∀ traj ∈ diff_trans.specie_traj,
        scel.max_allowed_occupation (scel.linear_index traj.from_.uccoord) <
          traj.from_.occ →
        (make_attachable scel diff_trans bg_config).occ
          (scel.linear_index traj.from_.uccoord) =
            bg_config.occ (scel.linear_index traj.from_.uccoord)) ∧
      (∀ site, (∀ traj ∈ diff_trans.specie_traj,
          scel.linear_index traj.from_.uccoord ≠ site) →
        (make_attachable scel diff_trans bg_config).occ site = bg_config.occ site) := by
  refine ⟨?_, ?_, ?_⟩
  · intro traj hmem hvalid
    unfold make_attachable
    rw [make_attachable_loop_from_site scel bg_config _ bg_config traj hdistinct hmem]
    by_cases h1 : bg_config.occ (scel.linear_index traj.from_.uccoord) = traj.from_.occ
    · simp [h1]
    · simp [h1, hvalid]
  · intro traj hmem hinvalid
    unfold make_attachable
    rw [make_attachable_loop_from_site scel bg_config _ bg_config traj hdistinct hmem]
    have hnot : ¬ traj.from_.occ <
        scel.max_allowed_occupation (scel.linear_index traj.from_.uccoord) :=
      not_lt.mpr (le_of_lt hinvalid)
    simp [hnot]
  · intro site hsite
    exact make_attachable_loop_other scel bg_config _ bg_config site hsite

/-- Witness of C19 (amended): on a line of sites with maximum allowed occupation 3, the
trajectories from site 0 (from-occupant 2, valid) and from site 1 (from-occupant 5,
not valid) over a background of occupant 0: site 0 gets occupant 2. -/
theorem make_attachable_sets_valid_from_occupants_witness :
    ([hop 0 1 2, hop 1 0 5].map fun t =>
        ({ lineSupercell with max_allowed_occupation := fun _ => 3 } :
          Supercell).linear_index t.from_.uccoord).Nodup ∧
      (make_attachable { lineSupercell with max_allowed_occupation := fun _ => 3 }
          { specie_traj := [hop 0 1 2, hop 1 0 5] } emptyLine).occ 0 = 2 :=
  ⟨by decide,
   (make_attachable_sets_valid_from_occupants
      { lineSupercell with max_allowed_occupation := fun _ => 3 }
      { specie_traj := [hop 0 1 2, hop 1 0 5] } emptyLine (by decide)).1 (hop 0 1 2)
      (by decide) (by decide)⟩

end Kinetics
end CASM

namespace CASM
namespace Kinetics

section DiffTransConfigurationTheorems

variable {DT Config : Type}

/-- C20 (what the code does): when the transformation leaves the from-configuration
unchanged, so that `to_config()` equals `from_config()`, `sort()` changes nothing
(`to < from` is false) and `is_sorted()` tests `from < to` strictly:
`sorted().is_sorted()` is false. -/
theorem sorted_not_is_sorted_when_to_equals_from (F : DiffTransFunctions DT Config)
    (self : DiffTransConfiguration DT Config)
    (hsame : self.to_config F = self.m_from_config)
    (hirrefl : F.lt self.m_from_config self.m_from_config = false) :
    self.sorted F = self ∧ (self.sorted F).is_sorted F = false := by
  have hsort : self.sorted F = self := by
    unfold DiffTransConfiguration.sorted DiffTransConfiguration.sort
    simp [hsame, hirrefl]
  refine ⟨hsort, ?_⟩
  rw [hsort]
  unfold DiffTransConfiguration.is_sorted
  simp [hsame, hirrefl]

/-- C20 at a concrete input: the null transformation (no occupation change) in the
configuration with occupants 0, 1. -/
theorem sorted_not_is_sorted_when_to_equals_from_witness :
    ({ m_diff_trans := [], m_from_config := [0, 1] } :
        DiffTransConfiguration (List OccChange) (List Nat)).to_config occFunctions =
        [0, 1] ∧
      occFunctions.lt [0, 1] [0, 1] = false ∧
      (({ m_diff_trans := [], m_from_config := [0, 1] } :
        DiffTransConfiguration (List OccChange) (List Nat)).sorted occFunctions).is_sorted
          occFunctions = false :=
  ⟨rfl, by decide,
   (sorted_not_is_sorted_when_to_equals_from occFunctions
      { m_diff_trans := [], m_from_config := [0, 1] } rfl (by decide)).2⟩

end DiffTransConfigurationTheorems

end Kinetics
end CASM

namespace CASM
namespace Monte2

section CompletionCheckRuleTheorems

variable {Cutoff Conv Sampled Samplers Time EI CI : Type}

/-- C22: given that a default-constructed `CompletionCheckResults` has
`is_complete = false` and `all_converged = false`, the verdict of `_check` is the
spec's four-step rule: `is_complete = all_minimums_met and ((convergence_check_params
is non-empty and all_equilibrated and all_converged) or any_maximum_met)`. -/
theorem check_refines_four_step_rule
    (X : Externals Cutoff Conv Sampled Samplers Time EI CI)
    (self : CompletionCheck Cutoff Conv EI CI) (sampled_data : Sampled)
    (hcomplete : X.default_results.is_complete = false)
    (hconverged : X.default_results.convergence_check_results.all_converged = false) :
    (self._check X sampled_data).m_results.is_complete =
        spec_four_step_rule X self.m_params sampled_data ∧
      (self._check X sampled_data).m_results.is_complete =
        (X.all_minimums_met self.m_params.cutoff_params (X.get_count sampled_data)
            (X.get_time sampled_data) (X.get_n_samples sampled_data) &&
          ((!self.m_params.convergence_check_params.isEmpty &&
              (X.equilibration_check self.m_params.convergence_check_params
                (X.samplers sampled_data) false).all_equilibrated &&
              (X.convergence_check self.m_params.convergence_check_params
                (X.equilibration_check self.m_params.convergence_check_params
                  (X.samplers sampled_data) false).N_samples_for_all_to_equilibrate
                (X.samplers sampled_data)).all_converged) ||
            X.any_maximum_met self.m_params.cutoff_params (X.get_count sampled_data)
              (X.get_time sampled_data) (X.get_n_samples sampled_data))) := by
  cases hmin : X.all_minimums_met self.m_params.cutoff_params (X.get_count sampled_data)
      (X.get_time sampled_data) (X.get_n_samples sampled_data) <;>
  cases hmax : X.any_maximum_met self.m_params.cutoff_params (X.get_count sampled_data)
      (X.get_time sampled_data) (X.get_n_samples sampled_data) <;>
  cases hparams : self.m_params.convergence_check_params <;>
  cases hequil : (X.equilibration_check self.m_params.convergence_check_params
      (X.samplers sampled_data) false).all_equilibrated <;>
  cases hconv : (X.convergence_check self.m_params.convergence_check_params
      (X.equilibration_check self.m_params.convergence_check_params
        (X.samplers sampled_data) false).N_samples_for_all_to_equilibrate
      (X.samplers sampled_data)).all_converged <;>
  simp_all [CompletionCheck._check, CompletionCheck.check_maximum, spec_four_step_rule]

/-- Witness of C22: minimums met, samplers not equilibrated, the maximum of one pass
exceeded: the code and the rule both say complete. -/
theorem check_refines_four_step_rule_witness :
    concreteExternals.default_results.is_complete = false ∧
      concreteExternals.default_results.convergence_check_results.all_converged = false ∧
      ((concreteCheck fiveSamplesOnePass ["formation_energy"])._check concreteExternals
        (sampledAt { equilibrated := false, N_equil := 0, converged := false } 9 5)
        ).m_results.is_complete =
        spec_four_step_rule concreteExternals
          (concreteCheck fiveSamplesOnePass ["formation_energy"]).m_params
          (sampledAt { equilibrated := false, N_equil := 0, converged := false } 9 5) ∧
      spec_four_step_rule concreteExternals
          (concreteCheck fiveSamplesOnePass ["formation_energy"]).m_params
          (sampledAt { equilibrated := false, N_equil := 0, converged := false } 9 5) =
        true :=
  ⟨rfl, rfl,
   (check_refines_four_step_rule concreteExternals
      (concreteCheck fiveSamplesOnePass ["formation_energy"])
      (sampledAt { equilibrated := false, N_equil := 0, converged := false } 9 5)
      rfl rfl).1,
   by decide⟩

/-- C23: if all minimums are met, `convergence_check_params` is non-empty and
`equilibration_check` does not report `all_equilibrated`, then `_check` does not
evaluate `convergence_check`: `convergence_check_results` stays default-constructed;
and (a default-constructed result having `is_complete = false` and
`all_converged = false`) `is_complete` is false unless a maximum cutoff is met: it
equals `any_maximum_met`. -/
theorem check_not_equilibrated
    (X : Externals Cutoff Conv Sampled Samplers Time EI CI)
    (self : CompletionCheck Cutoff Conv EI CI) (sampled_data : Sampled)
    (hmin : X.all_minimums_met self.m_params.cutoff_params (X.get_count sampled_data)
      (X.get_time sampled_data) (X.get_n_samples sampled_data) = true)
    (hparams : self.m_params.convergence_check_params ≠ [])
    (hequil : (X.equilibration_check self.m_params.convergence_check_params
      (X.samplers sampled_data) false).all_equilibrated = false)
    (hcomplete : X.default_results.is_complete = false)
    (hconverged : X.default_results.convergence_check_results.all_converged = false) :
    (self._check X sampled_data).m_results.convergence_check_results =
        X.default_results.convergence_check_results ∧
      (self._check X sampled_data).m_results.equilibration_check_results =
        X.equilibration_check self.m_params.convergence_check_params
          (X.samplers sampled_data) false ∧
      (self._check X sampled_data).m_results.is_complete =
        X.any_maximum_met self.m_params.cutoff_params (X.get_count sampled_data)
          (X.get_time sampled_data) (X.get_n_samples sampled_data) ∧
      (X.any_maximum_met self.m_params.cutoff_params (X.get_count sampled_data)
          (X.get_time sampled_data) (X.get_n_samples sampled_data) = false →
        (self._check X sampled_data).m_results.is_complete = false) := by
  have hlen : (self.m_params.convergence_check_params.length != 0) = true := by
    cases h : self.m_params.convergence_check_params with
    | nil => exact absurd h hparams
    | cons a l => rfl
  cases hmax : X.any_maximum_met self.m_params.cutoff_params (X.get_count sampled_data)
      (X.get_time sampled_data) (X.get_n_samples sampled_data) <;>
    simp [CompletionCheck._check, CompletionCheck.check_maximum, hmin, hlen, hequil,
      hcomplete, hconverged, hmax]

/-- Witness of C23: minimums met, one requested property, samplers not equilibrated,
no maximum configured: the convergence results are the default ones and the check
reports not complete. -/
theorem check_not_equilibrated_witness :
    concreteExternals.all_minimums_met fiveSamples 9 0 7 = true ∧
      (concreteExternals.equilibration_check ["formation_energy"]
        { equilibrated := false, N_equil := 0, converged := true } false).all_equilibrated
        = false ∧
      ((concreteCheck fiveSamples ["formation_energy"])._check concreteExternals
        (sampledAt { equilibrated := false, N_equil := 0, converged := true } 9 7)
        ).m_results.convergence_check_results =
        concreteExternals.default_results.convergence_check_results ∧
      ((concreteCheck fiveSamples ["formation_energy"])._check concreteExternals
        (sampledAt { equilibrated := false, N_equil := 0, converged := true } 9 7)
        ).m_results.is_complete = false :=
  ⟨by decide, by decide,
   (check_not_equilibrated concreteExternals
      (concreteCheck fiveSamples ["formation_energy"])
      (sampledAt { equilibrated := false, N_equil := 0, converged := true } 9 7)
      (by decide) (by decide) (by decide) rfl rfl).1,
   (check_not_equilibrated concreteExternals
      (concreteCheck fiveSamples ["formation_energy"])
      (sampledAt { equilibrated := false, N_equil := 0, converged := true } 9 7)
      (by decide) (by decide) (by decide) rfl rfl).2.2.2 (by decide)⟩

/-- C24: if all minimums are met, `convergence_check_params` is non-empty and
`equilibration_check` reports `all_equilibrated`, then `convergence_check_results` is
`convergence_check(convergence_check_params, N_samples_for_all_to_equilibrate,
samplers)` with the sample count that the equilibration check of the same invocation
reported (and stored in `equilibration_check_results`). -/
theorem check_convergence_after_equilibration
    (X : Externals Cutoff Conv Sampled Samplers Time EI CI)
    (self : CompletionCheck Cutoff Conv EI CI) (sampled_data : Sampled)
    (hmin : X.all_minimums_met self.m_params.cutoff_params (X.get_count sampled_data)
      (X.get_time sampled_data) (X.get_n_samples sampled_data) = true)
    (hparams : self.m_params.convergence_check_params ≠ [])
    (hequil : (X.equilibration_check self.m_params.convergence_check_params
      (X.samplers sampled_data) false).all_equilibrated = true) :
    (self._check X sampled_data).m_results.equilibration_check_results =
        X.equilibration_check self.m_params.convergence_check_params
          (X.samplers sampled_data) false ∧
      (self._check X sampled_data).m_results.convergence_check_results =
        X.convergence_check self.m_params.convergence_check_params
          (self._check X sampled_data).m_results.equilibration_check_results.N_samples_for_all_to_equilibrate
          (X.samplers sampled_data) := by
  have hlen : (self.m_params.convergence_check_params.length != 0) = true := by
    cases h : self.m_params.convergence_check_params with
    | nil => exact absurd h hparams
    | cons a l => rfl
  cases hmax : X.any_maximum_met self.m_params.cutoff_params (X.get_count sampled_data)
      (X.get_time sampled_data) (X.get_n_samples sampled_data) <;>
  cases hconv : (X.convergence_check self.m_params.convergence_check_params
      (X.equilibration_check self.m_params.convergence_check_params
        (X.samplers sampled_data) false).N_samples_for_all_to_equilibrate
      (X.samplers sampled_data)).all_converged <;>
    simp [CompletionCheck._check, CompletionCheck.check_maximum, hmin, hlen, hequil,
      hmax, hconv]

/-- Witness of C24: samplers equilibrated after 3 samples but not converged: the
convergence results are those of the convergence check with 3 samples excluded. -/
theorem check_convergence_after_equilibration_witness :
    concreteExternals.all_minimums_met fiveSamples 9 0 7 = true ∧
      (concreteExternals.equilibration_check ["formation_energy"]
        { equilibrated := true, N_equil := 3, converged := false } false).all_equilibrated
        = true ∧
      ((concreteCheck fiveSamples ["formation_energy"])._check concreteExternals
        (sampledAt { equilibrated := true, N_equil := 3, converged := false } 9 7)
        ).m_results.convergence_check_results =
        concreteExternals.convergence_check ["formation_energy"] 3
          { equilibrated := true, N_equil := 3, converged := false } :=
  ⟨by decide, by decide,
   (check_convergence_after_equilibration concreteExternals
      (concreteCheck fiveSamples ["formation_energy"])
      (sampledAt { equilibrated := true, N_equil := 3, converged := false } 9 7)
      (by decide) (by decide) (by decide)).2⟩

end CompletionCheckRuleTheorems

end Monte2
end CASM

namespace CASM
namespace Monte

/-- When the loop of `samplers` ends normally, the loop body of every measurement has
completed and the output is what was there followed by the samplers of the
measurements, in order. -/
theorem CanonicalSettings.samplers_loop_ok (S : SamplerSettings) (l : List Measurement)
    (result out : List (String × MonteSampler))
    (hok : CanonicalSettings.samplers_loop S l result = (out, Except.ok ())) :
    (∀ m ∈ l, (CanonicalSettings.samplers_of S m).2 = Except.ok ()) ∧
      out = result ++ (l.map fun m => (CanonicalSettings.samplers_of S m).1).flatten := by
  induction l generalizing result with
  | nil =>
    simp only [CanonicalSettings.samplers_loop, Prod.mk.injEq] at hok
    simp [hok.1]
  | cons m ms ih =>
    cases hm : CanonicalSettings.samplers_of S m with
    | mk w o =>
      cases o with
      | error e => simp [CanonicalSettings.samplers_loop, hm] at hok
      | ok u =>
        simp only [CanonicalSettings.samplers_loop, hm] at hok
        obtain ⟨h1, h2⟩ := ih (result ++ w) hok
        refine ⟨?_, ?_⟩
        · intro m' hm'
          rcases List.mem_cons.mp hm' with heq | hmem
          · rw [heq, hm]
          · exact h1 m' hmem
        · rw [h2]
          simp [hm, List.append_assoc]

/-- The samplers `_make_non_zero_eci_correlations_samplers` writes are not scalar
samplers. -/
theorem CanonicalSettings.non_zero_eci_correlations_not_scalar (S : SamplerSettings)
    (it : Measurement) :
    ∀ p ∈ (CanonicalSettings._make_non_zero_eci_correlations_samplers S it).1,
      p.2.is_scalar = false := by
  intro p hp
  unfold CanonicalSettings._make_non_zero_eci_correlations_samplers at hp
  cases heci : S.eci_index with
  | error e =>
    rw [heci] at hp
    exact absurd hp (List.not_mem_nil _)
  | ok index =>
    rw [heci] at hp
    simp only [List.mem_map] at hp
    obtain ⟨i, _, hi⟩ := hp
    rw [← hi]
    rfl

/-- The samplers `_make_order_parameter_samplers` writes are not scalar samplers. -/
theorem CanonicalSettings.order_parameter_not_scalar (S : SamplerSettings)
    (it : Measurement) :
    ∀ p ∈ (CanonicalSettings._make_order_parameter_samplers S it).1,
      p.2.is_scalar = false := by
  intro p hp
  have hfirst : ∀ n, ∀ p ∈ CanonicalSettings.order_parameter_samplers S it n,
      p.2.is_scalar = false := by
    intro n p hp
    simp only [CanonicalSettings.order_parameter_samplers, List.mem_map] at hp
    obtain ⟨i, _, hi⟩ := hp
    rw [← hi]
    rfl
  unfold CanonicalSettings._make_order_parameter_samplers at hp
  cases horder : S.make_order_parameter with
  | error e =>
    rw [horder] at hp
    exact absurd hp (List.not_mem_nil _)
  | ok order_parameter =>
    rw [horder] at hp
    dsimp only at hp
    cases hsub : S.make_order_parameter_subspaces with
    | error e =>
      rw [hsub] at hp
      exact hfirst _ p hp
    | ok v =>
      rw [hsub] at hp
      dsimp only at hp
      rcases List.mem_append.mp hp with h | h
      · exact hfirst _ p h
      · cases v with
        | none => exact absurd h (List.not_mem_nil _)
        | some n =>
          simp only [List.mem_map] at h
          obtain ⟨i, _, hi⟩ := h
          rw [← hi]
          rfl

/-- The samplers `_make_query_samplers` writes are not scalar samplers. -/
theorem CanonicalSettings.query_not_scalar (S : SamplerSettings) (it : Measurement) :
    ∀ p ∈ (CanonicalSettings._make_query_samplers S it).1, p.2.is_scalar = false := by
  intro p hp
  unfold CanonicalSettings._make_query_samplers at hp
  dsimp only at hp
  cases hquery : S.query it.quantity with
  | error e =>
    rw [hquery] at hp
    exact absurd hp (List.not_mem_nil _)
  | ok t =>
    rw [hquery] at hp
    dsimp only at hp
    by_cases ht : (t.test_size != t.col.length) = true
    · rw [if_pos ht] at hp
      exact absurd hp (List.not_mem_nil _)
    · rw [if_neg ht] at hp
      simp only [List.mem_map] at hp
      obtain ⟨i, _, hi⟩ := hp
      rw [← hi]
      rfl

/-- The scalar samplers keyed by a scalar quantity `q` among the samplers of one
measurement: one if the measurement is of `q`, none otherwise. -/
theorem CanonicalSettings.samplers_of_countP (S : SamplerSettings) (m : Measurement)
    (q : String) (hq : q ∈ ["formation_energy", "potential_energy"]) :
    (CanonicalSettings.samplers_of S m).1.countP (is_scalar_keyed q) =
      if m.quantity = q then 1 else 0 := by
  unfold CanonicalSettings.samplers_of
  dsimp only
  by_cases hs : m.quantity ∈ ["formation_energy", "potential_energy"]
  · rw [if_pos hs]
    by_cases hmq : m.quantity = q <;>
      simp [is_scalar_keyed, MonteSampler.is_scalar, hmq]
  · have hne : m.quantity ≠ q := fun h => hs (h ▸ hq)
    rw [if_neg hs, if_neg hne, List.countP_eq_zero]
    intro p hp
    have hvec : p.2.is_scalar = false := by
      by_cases hv : m.quantity ∈ ["non_zero_eci_correlations", "order_parameter"]
      · rw [if_pos hv] at hp
        have hfirst : ∀ p ∈ (if m.quantity = "non_zero_eci_correlations" then
              CanonicalSettings._make_non_zero_eci_correlations_samplers S m
            else ([], Except.ok ())).1, p.2.is_scalar = false := by
          intro p hp
          split_ifs at hp
          · exact CanonicalSettings.non_zero_eci_correlations_not_scalar S m p hp
          · exact absurd hp (List.not_mem_nil _)
        have hsecond : ∀ p ∈ (if m.quantity = "order_parameter" then
              CanonicalSettings._make_order_parameter_samplers S m
            else ([], Except.ok ())).1, p.2.is_scalar = false := by
          intro p hp
          split_ifs at hp
          · exact CanonicalSettings.order_parameter_not_scalar S m p hp
          · exact absurd hp (List.not_mem_nil _)
        split at hp
        · exact hfirst p hp
        · rcases List.mem_append.mp hp with h | h
          · exact hfirst p h
          · exact hsecond p h
      · rw [if_neg hv] at hp
        exact CanonicalSettings.query_not_scalar S m p hp
    simp [is_scalar_keyed, hvec]

/-- Replacing `"all_correlations"` by `"corr"` does not change the measurements of a
scalar quantity. -/
theorem CanonicalSettings.countP_replace (ms : List Measurement) (q : String)
    (hq : q ∈ ["formation_energy", "potential_energy"]) :
    (ms.map fun m =>
        if m.quantity = "all_correlations" then { m with quantity := "corr" } else m).countP
        (fun m => decide (m.quantity = q)) =
      ms.countP (fun m => decide (m.quantity = q)) := by
  have h1 : q ≠ "all_correlations" := by
    intro h
    subst h
    revert hq
    decide
  have h2 : q ≠ "corr" := by
    intro h
    subst h
    revert hq
    decide
  induction ms with
  | nil => rfl
  | cons m ms ih =>
    rw [List.map_cons, List.countP_cons, List.countP_cons, ih]
    congr 1
    by_cases hm : m.quantity = "all_correlations"
    · have hmq : m.quantity ≠ q := fun h => h1 (h ▸ hm)
      simp [hm, hmq, Ne.symm h2, Ne.symm h1]
    · simp [hm]

/-- Counting the measurements of `q` after the required quantities that are not among
`input` have been added. -/
theorem CanonicalSettings.countP_add_required (input required : List String)
    (t : List Measurement) (q : String) :
    (required.foldl
        (fun t r => if r ∈ input then t else t ++ [{ quantity := r, precision := none }])
        t).countP (fun m => decide (m.quantity = q)) =
      t.countP (fun m => decide (m.quantity = q)) +
        required.countP (fun r => decide (r = q) && !decide (r ∈ input)) := by
  induction required generalizing t with
  | nil => simp
  | cons r rs ih =>
    rw [List.foldl_cons, ih, List.countP_cons]
    by_cases hr : r ∈ input
    · simp [hr]
    · by_cases hrq : r = q
      · subst hrq
        simp only [hr, if_false, List.countP_append, List.countP_cons, List.countP_nil,
          decide_True, Bool.true_and, decide_False, Bool.not_false, if_true]
        omega
      · simp [hr, hrq, List.countP_append, List.countP_cons]

/-- The measurements of a required scalar quantity `q` in `t_measurements`: those of
the settings if there are any, one added measurement otherwise. -/
theorem CanonicalSettings.t_measurements_countP (has_order_parameter : Bool)
    (ms : List Measurement) (q : String)
    (hq : q ∈ ["formation_energy", "potential_energy"]) :
    (CanonicalSettings.t_measurements has_order_parameter ms).countP
        (fun m => decide (m.quantity = q)) =
      if ms.countP (fun m => decide (m.quantity = q)) = 0 then 1
      else ms.countP (fun m => decide (m.quantity = q)) := by
  have hmem : (q ∈ ((ms.map fun m =>
          if m.quantity = "all_correlations" then { m with quantity := "corr" } else m).map
            fun m => m.quantity) ↔
        ms.countP (fun m => decide (m.quantity = q)) ≠ 0) := by
    rw [← CanonicalSettings.countP_replace ms q hq, ← Nat.pos_iff_ne_zero,
      List.countP_pos_iff]
    simp only [List.mem_map, decide_eq_true_eq]
  have hreq : ∀ input : List String,
      (["potential_energy", "formation_energy"] ++
          (if has_order_parameter then ["order_parameter"] else [])).countP
        (fun r => decide (r = q) && !decide (r ∈ input)) =
      if q ∈ input then 0 else 1 := by
    intro input
    simp only [List.mem_cons, List.mem_singleton, List.not_mem_nil, or_false] at hq
    rcases hq with rfl | rfl
    · cases has_order_parameter <;> by_cases hin : "formation_energy" ∈ input <;>
        simp [List.countP_cons, hin]
    · cases has_order_parameter <;> by_cases hin : "potential_energy" ∈ input <;>
        simp [List.countP_cons, hin]
  unfold CanonicalSettings.t_measurements
  dsimp only
  rw [CanonicalSettings.countP_add_required, hreq, CanonicalSettings.countP_replace ms q hq]
  by_cases hc : ms.countP (fun m => decide (m.quantity = q)) = 0
  · have hnot := (not_congr hmem).mpr (not_not.mpr hc)
    rw [if_neg hnot, if_pos hc, hc]
  · rw [if_pos (hmem.mpr hc), if_neg hc]
    rfl

/-- The scalar samplers keyed by a scalar quantity `q` in what a list of measurements
writes: one for each measurement of `q`. -/
theorem CanonicalSettings.written_countP (S : SamplerSettings) (l : List Measurement)
    (q : String) (hq : q ∈ ["formation_energy", "potential_energy"]) :
    (l.map fun m => (CanonicalSettings.samplers_of S m).1).flatten.countP
        (is_scalar_keyed q) =
      l.countP (fun m => decide (m.quantity = q)) := by
  induction l with
  | nil => rfl
  | cons m ms ih =>
    rw [List.map_cons, List.flatten_cons, List.countP_append, List.countP_cons, ih,
      CanonicalSettings.samplers_of_countP S m q hq]
    by_cases hmq : m.quantity = q <;> simp [hmq, Nat.add_comm]

/-- C26: when `samplers` returns normally, its output holds a scalar sampler keyed
"potential_energy" and one keyed "formation_energy" whether or not the measurements
of the settings list them, and no second one is added for a required quantity that is
listed: the number of scalar samplers with that key is the number of times the
quantity is listed, or one if it is not listed. -/
theorem samplers_required_scalars (S : SamplerSettings) (measurements : List Measurement)
    (out : List (String × MonteSampler))
    (hok : CanonicalSettings.samplers S measurements = (out, Except.ok ()))
    (q : String) (hq : q ∈ ["potential_energy", "formation_energy"]) :
    (∃ prec, (q, MonteSampler.ScalarMonteSampler q q prec S.confidence
        S.max_data_length) ∈ out) ∧
      out.countP (is_scalar_keyed q) =
        (if measurements.countP (fun m => decide (m.quantity = q)) = 0 then 1
          else measurements.countP (fun m => decide (m.quantity = q))) := by
  have hq' : q ∈ ["formation_energy", "potential_energy"] := by
    simp only [List.mem_cons, List.mem_singleton, List.not_mem_nil, or_false] at hq ⊢
    exact hq.symm
  unfold CanonicalSettings.samplers at hok
  cases horder : S.make_order_parameter with
  | error e =>
    rw [horder] at hok
    simp at hok
  | ok order_parameter =>
    rw [horder] at hok
    dsimp only at hok
    obtain ⟨_, hout⟩ := CanonicalSettings.samplers_loop_ok S _ [] out hok
    rw [List.nil_append] at hout
    have hcount :=
      CanonicalSettings.t_measurements_countP order_parameter.isSome measurements q hq'
    have hwritten := CanonicalSettings.written_countP S
      (CanonicalSettings.t_measurements order_parameter.isSome measurements) q hq'
    refine ⟨?_, ?_⟩
    · have hpos : 0 < (CanonicalSettings.t_measurements order_parameter.isSome
          measurements).countP (fun m => decide (m.quantity = q)) := by
        rw [hcount]
        split_ifs with h
        · exact Nat.one_pos
        · exact Nat.pos_of_ne_zero h
      obtain ⟨m, hm, hmq⟩ := List.countP_pos_iff.mp hpos
      have hmq' : m.quantity = q := of_decide_eq_true hmq
      refine ⟨CanonicalSettings.sampler_prec m, ?_⟩
      rw [hout, List.mem_flatten]
      refine ⟨[(q, MonteSampler.ScalarMonteSampler q q (CanonicalSettings.sampler_prec m)
        S.confidence S.max_data_length)], ?_, List.mem_singleton.mpr rfl⟩
      rw [List.mem_map]
      refine ⟨m, hm, ?_⟩
      unfold CanonicalSettings.samplers_of
      simp only [hmq', hq', if_true]
    · rw [hout, hwritten, hcount]

/-- Witness of C26: the settings list formation_energy (with a precision) and not
potential_energy; the call returns normally, its output holds the sampler of the listed
formation_energy followed by the added potential_energy sampler, and one scalar sampler
for each key. -/
theorem samplers_required_scalars_witness :
    CanonicalSettings.samplers toySamplerSettings
        [{ quantity := "formation_energy", precision := some 1 }] =
        ([("formation_energy",
            MonteSampler.ScalarMonteSampler "formation_energy" "formation_energy" (some 1)
              1 1000),
          ("potential_energy",
            MonteSampler.ScalarMonteSampler "potential_energy" "potential_energy" none 1
              1000)],
          Except.ok ()) ∧
      ((∃ prec, ("formation_energy", MonteSampler.ScalarMonteSampler "formation_energy"
          "formation_energy" prec toySamplerSettings.confidence
          toySamplerSettings.max_data_length) ∈
        (CanonicalSettings.samplers toySamplerSettings
          [{ quantity := "formation_energy", precision := some 1 }]).1) ∧
        (CanonicalSettings.samplers toySamplerSettings
          [{ quantity := "formation_energy", precision := some 1 }]).1.countP
            (is_scalar_keyed "formation_energy") =
          (if [({ quantity := "formation_energy", precision := some 1 } : Measurement)].countP
              (fun m => decide (m.quantity = "formation_energy")) = 0 then 1
            else [({ quantity := "formation_energy", precision := some 1 } : Measurement)].countP
              (fun m => decide (m.quantity = "formation_energy")))) :=
  ⟨rfl,
   samplers_required_scalars toySamplerSettings
      [{ quantity := "formation_energy", precision := some 1 }] _ rfl "formation_energy"
      (by decide)⟩

/-- C27: `_get_precision` returns `(true, p)` exactly when the measurement contains the
key "precision" with value `p`, and `(false, 0.0)` otherwise; and a scalar measurement
(formation_energy or potential_energy) is given a sampler constructed with the
precision `p` (it must converge to `p`) exactly in the first case, and a sampler
constructed without a precision (no convergence requirement) in the second. -/
theorem get_precision_and_scalar_sampler (S : SamplerSettings) (quantity : String)
    (p : ℚ) (hscalar : quantity ∈ ["formation_energy", "potential_energy"]) :
    (∀ it : Measurement,
        CanonicalSettings._get_precision it = (true, p) ↔ it.precision = some p) ∧
      (∀ it : Measurement,
        it.precision = none ↔ CanonicalSettings._get_precision it = (false, 0)) ∧
      CanonicalSettings.samplers_of S { quantity := quantity, precision := some p } =
        ([(quantity,
          MonteSampler.ScalarMonteSampler quantity quantity (some p) S.confidence
            S.max_data_length)], Except.ok ()) ∧
      CanonicalSettings.samplers_of S { quantity := quantity, precision := none } =
        ([(quantity,
          MonteSampler.ScalarMonteSampler quantity quantity none S.confidence
            S.max_data_length)], Except.ok ()) := by
  refine ⟨?_, ?_, ?_, ?_⟩
  · intro it
    unfold CanonicalSettings._get_precision
    cases it.precision <;> simp
  · intro it
    unfold CanonicalSettings._get_precision
    cases it.precision <;> simp
  · unfold CanonicalSettings.samplers_of
    simp [hscalar, CanonicalSettings.sampler_prec, CanonicalSettings._get_precision]
  · unfold CanonicalSettings.samplers_of
    simp [hscalar, CanonicalSettings.sampler_prec, CanonicalSettings._get_precision]

/-- Witness of C27: formation_energy with precision 1/100 and without a precision. -/
theorem get_precision_and_scalar_sampler_witness :
    CanonicalSettings._get_precision
        { quantity := "formation_energy", precision := some (1 / 100) } =
        (true, 1 / 100) ∧
      CanonicalSettings._get_precision
        { quantity := "formation_energy", precision := none } = (false, 0) ∧
      CanonicalSettings.samplers_of toySamplerSettings
          { quantity := "formation_energy", precision := some (1 / 100) } =
        ([("formation_energy",
          MonteSampler.ScalarMonteSampler "formation_energy" "formation_energy"
            (some (1 / 100)) toySamplerSettings.confidence
            toySamplerSettings.max_data_length)], Except.ok ()) :=
  ⟨rfl, rfl,
   (get_precision_and_scalar_sampler toySamplerSettings "formation_energy" (1 / 100)
      (by decide)).2.2.1⟩

end Monte
end CASM

namespace CASM
namespace sym

/-- C29: applying a symmetry operation to a `UnitCellCoord` commutes with lattice
translation: `copy_apply(op, (b, u + t), prim)` is `copy_apply(op, (b, u), prim)` with
the same sublattice and with `rep.matrix() * t` added to the unit cell (both calls are
undefined together, where `b` is not a sublattice of the representation); where `b` is
a sublattice both calls return; and the in-place `apply` leaves its argument equal to
the result of `copy_apply`. -/
theorem copy_apply_commutes_with_translation (lround : (Fin 3 → ℚ) → UnitCell)
    (op : SymOp) (prim : Structure) (rep : SymBasisPermute) (b : Int) (u t : UnitCell)
    (hrep : op.get_basis_permute_rep prim.basis_permutation_symrep_ID = some rep) :
    copy_apply lround op { m_sublat := b, m_unitcell := u + t } prim =
        (copy_apply lround op { m_sublat := b, m_unitcell := u } prim).map
          (fun r => { m_sublat := r.sublattice,
                      m_unitcell := r.unitcell + rep.matrix.mulVec t }) ∧
      (∀ p, rep.get b = some p →
        ∃ r, copy_apply lround op { m_sublat := b, m_unitcell := u } prim = Except.ok r ∧
          copy_apply lround op { m_sublat := b, m_unitcell := u + t } prim =
            Except.ok { m_sublat := r.sublattice,
                        m_unitcell := r.unitcell + rep.matrix.mulVec t }) ∧
      (∀ mutating_ucc,
        apply lround op mutating_ucc prim = copy_apply lround op mutating_ucc prim) := by
  have key : ∀ p, rep.get b = some p →
      copy_apply lround op { m_sublat := b, m_unitcell := u } prim =
          Except.ok { m_sublat := p.sublattice,
                      m_unitcell := rep.matrix.mulVec u + p.unitcell +
                        lround (prim.inv_lat_column_mat.mulVec op.integral_tau) } ∧
        copy_apply lround op { m_sublat := b, m_unitcell := u + t } prim =
          Except.ok { m_sublat := p.sublattice,
                      m_unitcell := rep.matrix.mulVec u + p.unitcell +
                        lround (prim.inv_lat_column_mat.mulVec op.integral_tau) +
                        rep.matrix.mulVec t } := by
    intro p hp
    refine ⟨?_, ?_⟩
    · simp only [copy_apply, hrep, UnitCellCoord.sublattice, UnitCellCoord.unitcell, hp]
    · simp only [copy_apply, hrep, UnitCellCoord.sublattice, UnitCellCoord.unitcell, hp,
        Matrix.mulVec_add]
      congr 2
      abel
  refine ⟨?_, ?_, ?_⟩
  · cases hb : rep.get b with
    | none =>
      simp only [copy_apply, hrep, UnitCellCoord.sublattice, hb]
      rfl
    | some p =>
      obtain ⟨h1, h2⟩ := key p hb
      rw [h1, h2]
      rfl
  · intro p hp
    obtain ⟨h1, h2⟩ := key p hp
    exact ⟨_, h1, h2⟩
  · intro mutating_ucc
    unfold apply
    cases copy_apply lround op mutating_ucc prim <;> rfl

/-- Witness of C29: the operation `toyOp` on the coordinate (1, (2, 3, 4)) translated
by (5, 6, 7). -/
theorem copy_apply_commutes_with_translation_witness :
    toyOp.get_basis_permute_rep toyPrim.basis_permutation_symrep_ID = some toyRep ∧
      copy_apply toy_lround toyOp
          { m_sublat := 1, m_unitcell := ![2, 3, 4] + ![5, 6, 7] } toyPrim =
        (copy_apply toy_lround toyOp { m_sublat := 1, m_unitcell := ![2, 3, 4] }
            toyPrim).map
          (fun r => { m_sublat := r.sublattice,
                      m_unitcell := r.unitcell + toyRep.matrix.mulVec ![5, 6, 7] }) :=
  ⟨rfl,
   (copy_apply_commutes_with_translation toy_lround toyOp toyPrim toyRep 1 ![2, 3, 4]
      ![5, 6, 7] rfl).1⟩

end sym
end CASM

namespace CASM
namespace Kinetics

section ToCanonicalTheorems

variable {Perm DT Config : Type}

/-- The invariant of the first loop of `to_canonical`: after the operations `pre`,
every operation of `checklist` is one of `pre` and maps the transformation to an image
equal to `greatest`; no image of an operation of `pre` is greater than `greatest`; and
while `checklist` is empty, `greatest` is the prepared transformation and no operation
of `pre` leaves it unchanged. -/
theorem DiffTransConfiguration.to_canonical_checklist_invariant
    (C : CanonicalFunctions Perm DT Config) (m_diff_trans : DT)
    (heq_refl : ∀ a, C.diff_trans_eq a a = true)
    (heq_not_gt : ∀ a b, C.diff_trans_eq a b = true → C.diff_trans_gt a b = false)
    (hgt_trans : ∀ a b c, C.diff_trans_gt a b = true → C.diff_trans_gt b c = true →
      C.diff_trans_gt a c = true)
    (l pre : List Perm) (greatest : DT) (checklist : List Perm)
    (hA : ∀ op ∈ checklist, op ∈ pre ∧
      C.diff_trans_eq (C.prepare (C.copy_apply_diff_trans op m_diff_trans)) greatest = true)
    (hB : ∀ op ∈ pre,
      C.diff_trans_gt (C.prepare (C.copy_apply_diff_trans op m_diff_trans)) greatest = false)
    (hC : checklist = [] → greatest = C.prepare m_diff_trans ∧
      ∀ op ∈ pre, C.prepare (C.copy_apply_diff_trans op m_diff_trans) ≠
        C.prepare m_diff_trans) :
    (∀ op ∈ (DiffTransConfiguration.to_canonical_checklist C m_diff_trans l
          (greatest, checklist)).2,
        op ∈ pre ++ l ∧
          C.diff_trans_eq (C.prepare (C.copy_apply_diff_trans op m_diff_trans))
            (DiffTransConfiguration.to_canonical_checklist C m_diff_trans l
              (greatest, checklist)).1 = true) ∧
      (∀ op ∈ pre ++ l,
        C.diff_trans_gt (C.prepare (C.copy_apply_diff_trans op m_diff_trans))
          (DiffTransConfiguration.to_canonical_checklist C m_diff_trans l
            (greatest, checklist)).1 = false) ∧
      ((DiffTransConfiguration.to_canonical_checklist C m_diff_trans l
          (greatest, checklist)).2 = [] →
        ∀ op ∈ pre ++ l, C.prepare (C.copy_apply_diff_trans op m_diff_trans) ≠
          C.prepare m_diff_trans) := by
  induction l generalizing pre greatest checklist with
  | nil =>
    simp only [DiffTransConfiguration.to_canonical_checklist, List.append_nil]
    exact ⟨hA, hB, fun h => (hC h).2⟩
  | cons it rest ih =>
    have hpre : pre ++ it :: rest = (pre ++ [it]) ++ rest := by simp
    rw [hpre]
    unfold DiffTransConfiguration.to_canonical_checklist
    simp only
    split_ifs with h1 h2
    · apply ih
      · intro op hop
        rcases List.mem_append.mp hop with h | h
        · exact ⟨List.mem_append_left _ (hA op h).1, (hA op h).2⟩
        · rw [List.mem_singleton] at h
          subst h
          exact ⟨List.mem_append_right _ (List.mem_singleton.mpr rfl), h1⟩
      · intro op hop
        rcases List.mem_append.mp hop with h | h
        · exact hB op h
        · rw [List.mem_singleton] at h
          subst h
          exact heq_not_gt _ _ h1
      · intro h
        simp at h
    · apply ih
      · intro op hop
        rw [List.nil_append, List.mem_singleton] at hop
        subst hop
        exact ⟨List.mem_append_right _ (List.mem_singleton.mpr rfl), heq_refl _⟩
      · intro op hop
        rcases List.mem_append.mp hop with h | h
        · cases hgt : C.diff_trans_gt (C.prepare (C.copy_apply_diff_trans op m_diff_trans))
              (C.prepare (C.copy_apply_diff_trans it m_diff_trans)) with
          | false => rfl
          | true =>
            have := hgt_trans _ _ _ hgt h2
            rw [hB op h] at this
            exact absurd this (by simp)
        · rw [List.mem_singleton] at h
          subst h
          exact heq_not_gt _ _ (heq_refl _)
      · intro h
        simp at h
    · apply ih
      · intro op hop
        exact ⟨List.mem_append_left _ (hA op hop).1, (hA op hop).2⟩
      · intro op hop
        rcases List.mem_append.mp hop with h | h
        · exact hB op h
        · rw [List.mem_singleton] at h
          subst h
          simpa using h2
      · intro h
        obtain ⟨hg, hne⟩ := hC h
        refine ⟨hg, ?_⟩
        intro op hop
        rcases List.mem_append.mp hop with h' | h'
        · exact hne op h'
        · rw [List.mem_singleton] at h'
          subst h'
          intro hcontra
          rw [hcontra, hg, heq_refl] at h1
          exact h1 rfl

/-- The operation that the second loop of `to_canonical` ends with is the initial one
or one of the operations the loop ran over. -/
theorem DiffTransConfiguration.to_canonical_max_mem (F : DiffTransFunctions DT Config)
    (C : CanonicalFunctions Perm DT Config) (self : DiffTransConfiguration DT Config)
    (greatest : DT) (rest : List Perm) (max_dtc : DiffTransConfiguration DT Config)
    (canon_op_it : Perm) :
    (DiffTransConfiguration.to_canonical_max F C self greatest rest
      (max_dtc, canon_op_it)).2 ∈ canon_op_it :: rest := by
  induction rest generalizing max_dtc canon_op_it with
  | nil => simp [DiffTransConfiguration.to_canonical_max]
  | cons it rest ih =>
    unfold DiffTransConfiguration.to_canonical_max
    simp only
    split_ifs
    · exact List.mem_cons_of_mem _ (ih _ _)
    · rcases List.mem_cons.mp (ih max_dtc canon_op_it) with h | h
      · rw [h]
        exact List.mem_cons_self _ _
      · exact List.mem_cons_of_mem _ (List.mem_cons_of_mem _ h)

end ToCanonicalTheorems

end Kinetics
end CASM

namespace CASM
namespace Kinetics

/-- C30: in `DiffTransConfiguration::to_canonical`, whenever the permutation range
contains an operation that leaves the prepared diffusion transformation unchanged,
`checklist` is non-empty after the first loop, so that reading its first element is
defined and the function returns an operation of `checklist`; and every operation in
`checklist` is an operation of the range that maps the diffusion transformation to a
prepared image equal to `greatest`, which no prepared image over the whole range
exceeds.  The operators `==` and `>` are assumed to be those of an order: `==` is
reflexive, `a == b` excludes `a > b`, and `>` is transitive. -/
theorem to_canonical_checklist_nonempty_and_greatest {Perm DT Config : Type}
    (F : DiffTransFunctions DT Config) (C : CanonicalFunctions Perm DT Config)
    (permute_range : List Perm) (self : DiffTransConfiguration DT Config)
    (greatest : DT) (checklist : List Perm)
    (heq_refl : ∀ a, C.diff_trans_eq a a = true)
    (heq_not_gt : ∀ a b, C.diff_trans_eq a b = true → C.diff_trans_gt a b = false)
    (hgt_trans : ∀ a b c, C.diff_trans_gt a b = true → C.diff_trans_gt b c = true →
      C.diff_trans_gt a c = true)
    (hidentity : ∃ op ∈ permute_range,
      C.prepare (C.copy_apply_diff_trans op self.m_diff_trans) =
        C.prepare self.m_diff_trans)
    (hloop : DiffTransConfiguration.to_canonical_checklist C self.m_diff_trans
      permute_range (C.prepare self.m_diff_trans, []) = (greatest, checklist)) :
    checklist ≠ [] ∧
      (∀ op ∈ checklist, op ∈ permute_range ∧
        C.diff_trans_eq (C.prepare (C.copy_apply_diff_trans op self.m_diff_trans))
          greatest = true) ∧
      (∀ op ∈ permute_range,
        C.diff_trans_gt (C.prepare (C.copy_apply_diff_trans op self.m_diff_trans))
          greatest = false) ∧
      ∃ canon_op_it,
        DiffTransConfiguration.to_canonical F C permute_range self =
          Except.ok canon_op_it ∧
        canon_op_it ∈ checklist := by
  have hinv := DiffTransConfiguration.to_canonical_checklist_invariant C self.m_diff_trans
    heq_refl heq_not_gt hgt_trans permute_range [] (C.prepare self.m_diff_trans) []
    (by intro op hop; cases hop) (by intro op hop; cases hop)
    (by intro _; exact ⟨rfl, by intro op hop; cases hop⟩)
  rw [hloop, List.nil_append] at hinv
  obtain ⟨hA, hB, hC⟩ := hinv
  have hne : checklist ≠ [] := by
    intro hempty
    obtain ⟨op, hop, himg⟩ := hidentity
    exact hC hempty op hop himg
  refine ⟨hne, hA, hB, ?_⟩
  unfold DiffTransConfiguration.to_canonical
  simp only [hloop]
  cases hc : checklist with
  | nil => exact absurd hc hne
  | cons it rest =>
    exact ⟨_, rfl, DiffTransConfiguration.to_canonical_max_mem F C self greatest rest _ it⟩

/-- Witness of C30: the transformation 1 under the operations 0, 1, 2, of which 0
leaves it unchanged; the images are 1, 2, 0, so that `greatest` is 2 and `checklist`
holds the operation 1, which is returned. -/
theorem to_canonical_checklist_nonempty_and_greatest_witness :
    DiffTransConfiguration.to_canonical_checklist cyclicCanonical 1 [0, 1, 2]
        (cyclicCanonical.prepare 1, []) = (2, [1]) ∧
      DiffTransConfiguration.to_canonical cyclicFunctions cyclicCanonical [0, 1, 2]
        { m_diff_trans := 1, m_from_config := 0 } = Except.ok 1 ∧
      ([1] : List Nat) ≠ [] ∧
      (∀ op ∈ ([1] : List Nat), op ∈ [0, 1, 2] ∧
        cyclicCanonical.diff_trans_eq
          (cyclicCanonical.prepare (cyclicCanonical.copy_apply_diff_trans op 1)) 2 = true) :=
  ⟨by decide, rfl,
   (to_canonical_checklist_nonempty_and_greatest cyclicFunctions cyclicCanonical [0, 1, 2]
      { m_diff_trans := 1, m_from_config := 0 } 2 [1]
      (by intro a; simp [cyclicCanonical])
      (by intro a b h; simp [cyclicCanonical] at h ⊢; omega)
      (by intro a b c h1 h2; simp [cyclicCanonical] at h1 h2 ⊢; omega)
      ⟨0, by decide, by decide⟩ (by decide)).1,
   (to_canonical_checklist_nonempty_and_greatest cyclicFunctions cyclicCanonical [0, 1, 2]
      { m_diff_trans := 1, m_from_config := 0 } 2 [1]
      (by intro a; simp [cyclicCanonical])
      (by intro a b h; simp [cyclicCanonical] at h ⊢; omega)
      (by intro a b c h1 h2; simp [cyclicCanonical] at h1 h2 ⊢; omega)
      ⟨0, by decide, by decide⟩ (by decide)).2.1⟩

end Kinetics
end CASM

namespace CASM

section MakeSubOrbitGeneratorsTheorems

variable {Op Element : Type}

/-- The test of `MakeSubOrbitGenerators::operator()` on `test_op` passes exactly when
the index of `test_op` is the greatest in its double coset. -/
theorem MakeSubOrbitGenerators.test_eq_greatest [Mul Op] (index : Op → Int)
    (H K : List Op) (test_op : Op) :
    (H.all fun op => !MakeSubOrbitGenerators.lambda index K test_op op) =
      greatest_in_double_coset index H K test_op := by
  unfold greatest_in_double_coset MakeSubOrbitGenerators.lambda
  congr 1
  funext h
  induction K with
  | nil => rfl
  | cons k ks ih =>
    simp only [List.any_cons, List.all_cons, Bool.not_or, ih]
    congr 1
    by_cases hlt : index test_op < index (h * test_op * k)
    · simp [hlt]
    · simp [hlt, not_lt.mp hlt]

/-- The loop of `MakeSubOrbitGenerators::operator()` appends to the output the images
of the operations that pass the test, in the order of the operations. -/
theorem MakeSubOrbitGenerators.loop_eq_filter [Mul Op] (index : Op → Int)
    (copy_apply : Op → Element → Element) (self : MakeSubOrbitGenerators Op)
    (element : Element) (K : List Op) (l : List Op) (result : List Element) :
    MakeSubOrbitGenerators.loop index copy_apply self element K l result =
      result ++ (l.filter (greatest_in_double_coset index self.m_subgroup K)).map
        (fun g => copy_apply g element) := by
  induction l generalizing result with
  | nil => simp [MakeSubOrbitGenerators.loop]
  | cons g gs ih =>
    unfold MakeSubOrbitGenerators.loop
    rw [MakeSubOrbitGenerators.test_eq_greatest]
    by_cases hg : greatest_in_double_coset index self.m_subgroup K g = true
    · simp [hg, ih]
    · simp [hg, ih]

/-- A non-empty list has an element at which an integer-valued function is greatest. -/
theorem exists_greatest_image {α : Type} (f : α → Int) (l : List α) (hl : l ≠ []) :
    ∃ x ∈ l, ∀ y ∈ l, f y ≤ f x := by
  induction l with
  | nil => exact absurd rfl hl
  | cons a as ih =>
    by_cases has : as = []
    · subst has
      exact ⟨a, List.mem_cons_self _ _, by
        intro y hy
        rw [List.mem_singleton] at hy
        rw [hy]⟩
    · obtain ⟨x, hx, hmax⟩ := ih has
      by_cases hax : f x ≤ f a
      · refine ⟨a, List.mem_cons_self _ _, ?_⟩
        intro y hy
        rcases List.mem_cons.mp hy with h | h
        · rw [h]
        · exact le_trans (hmax y h) hax
      · refine ⟨x, List.mem_cons_of_mem _ hx, ?_⟩
        intro y hy
        rcases List.mem_cons.mp hy with h | h
        · rw [h]
          exact le_of_lt (not_le.mp hax)
        · exact hmax y h

/-- In a group, for subgroups `H` and `K` given as lists, the double coset `H g K` has an
operation whose index is the greatest in it. -/
theorem exists_greatest_in_double_coset [Group Op] (index : Op → Int) (H K : List Op)
    (hH_one : (1 : Op) ∈ H) (hK_one : (1 : Op) ∈ K)
    (hH_mul : ∀ a ∈ H, ∀ b ∈ H, a * b ∈ H) (hK_mul : ∀ a ∈ K, ∀ b ∈ K, a * b ∈ K)
    (g : Op) :
    ∃ x, in_double_coset H K g x ∧ greatest_in_double_coset index H K x = true := by
  have hne : (H.flatMap fun h => K.map fun k => h * g * k) ≠ [] := by
    intro hempty
    have hmem : 1 * g * 1 ∈ (H.flatMap fun h => K.map fun k => h * g * k) :=
      List.mem_flatMap.mpr ⟨1, hH_one, List.mem_map.mpr ⟨1, hK_one, rfl⟩⟩
    rw [hempty] at hmem
    cases hmem
  obtain ⟨x, hx, hmax⟩ := exists_greatest_image index _ hne
  obtain ⟨h, hh, hxk⟩ := List.mem_flatMap.mp hx
  obtain ⟨k, hk, hxeq⟩ := List.mem_map.mp hxk
  refine ⟨x, ⟨h, hh, k, hk, hxeq.symm⟩, ?_⟩
  unfold greatest_in_double_coset
  rw [List.all_eq_true]
  intro h' hh'
  rw [List.all_eq_true]
  intro k' hk'
  rw [decide_eq_true_eq]
  apply hmax
  refine List.mem_flatMap.mpr ⟨h' * h, hH_mul _ hh' _ hh, List.mem_map.mpr ⟨k * k', hK_mul _ hk _ hk', ?_⟩⟩
  rw [← hxeq]
  group

/-- The index of `g` is the greatest in its double coset exactly when no `h * g * k`
has a greater index. -/
theorem greatest_in_double_coset_iff [Mul Op] (index : Op → Int) (H K : List Op) (g : Op) :
    greatest_in_double_coset index H K g = true ↔
      ∀ h ∈ H, ∀ k ∈ K, index (h * g * k) ≤ index g := by
  unfold greatest_in_double_coset
  simp only [List.all_eq_true, decide_eq_true_eq]

/-- C28: for a group `G` whose operations have pairwise distinct `index()`, a subgroup
`H` of `G` and an invariant subgroup `K` of `G`, `MakeSubOrbitGenerators{G, H}(element,
K, out)` writes `copy_apply(g, element)` for exactly those `g` in `G` whose index is
the greatest in the double coset `H g K`, in the order the operations appear in `G`;
each such `g` is written once, and every double coset `H g K` has exactly one
of them. -/
theorem make_suborbit_generators_one_per_double_coset [Group Op] (index : Op → Int)
    (copy_apply : Op → Element → Element) (element : Element) (G H K : List Op)
    (result : List Element)
    (hindex : (G.map index).Nodup)
    (hG_mul : ∀ a ∈ G, ∀ b ∈ G, a * b ∈ G)
    (hH_sub : ∀ a ∈ H, a ∈ G) (hK_sub : ∀ a ∈ K, a ∈ G)
    (hH_one : (1 : Op) ∈ H) (hK_one : (1 : Op) ∈ K)
    (hH_mul : ∀ a ∈ H, ∀ b ∈ H, a * b ∈ H) (hH_inv : ∀ a ∈ H, a⁻¹ ∈ H)
    (hK_mul : ∀ a ∈ K, ∀ b ∈ K, a * b ∈ K) (hK_inv : ∀ a ∈ K, a⁻¹ ∈ K) :
    (MakeSubOrbitGenerators.construct G H).call index copy_apply element K result =
        result ++ (G.filter (greatest_in_double_coset index H K)).map
          (fun g => copy_apply g element) ∧
      make_suborbit_generators index copy_apply element K G H result =
        result ++ (G.filter (greatest_in_double_coset index H K)).map
          (fun g => copy_apply g element) ∧
      (G.filter (greatest_in_double_coset index H K)).Nodup ∧
      ∀ g ∈ G, ∃! x, x ∈ G.filter (greatest_in_double_coset index H K) ∧
        in_double_coset H K g x := by
  have hcall : (MakeSubOrbitGenerators.construct G H).call index copy_apply element K
      result = result ++ (G.filter (greatest_in_double_coset index H K)).map
        (fun g => copy_apply g element) := by
    unfold MakeSubOrbitGenerators.call
    rw [MakeSubOrbitGenerators.loop_eq_filter]
    rfl
  refine ⟨hcall, hcall, (List.Nodup.of_map index hindex).filter _, ?_⟩
  intro g hg
  obtain ⟨x, ⟨h, hh, k, hk, hx⟩, hxmax⟩ :=
    exists_greatest_in_double_coset index H K hH_one hK_one hH_mul hK_mul g
  have hxG : x ∈ G := by
    rw [hx]
    exact hG_mul _ (hG_mul _ (hH_sub _ hh) _ hg) _ (hK_sub _ hk)
  refine ⟨x, ⟨List.mem_filter.mpr ⟨hxG, hxmax⟩, h, hh, k, hk, hx⟩, ?_⟩
  rintro y ⟨hyf, h2, hh2, k2, hk2, hy⟩
  obtain ⟨hyG, hymax⟩ := List.mem_filter.mp hyf
  have hxy : index x ≤ index y := by
    have := (greatest_in_double_coset_iff index H K y).mp hymax (h * h2⁻¹)
      (hH_mul _ hh _ (hH_inv _ hh2)) (k2⁻¹ * k) (hK_mul _ (hK_inv _ hk2) _ hk)
    have hprod : h * h2⁻¹ * y * (k2⁻¹ * k) = x := by
      rw [hx, hy]
      group
    rwa [hprod] at this
  have hyx : index y ≤ index x := by
    have := (greatest_in_double_coset_iff index H K x).mp hxmax (h2 * h⁻¹)
      (hH_mul _ hh2 _ (hH_inv _ hh)) (k⁻¹ * k2) (hK_mul _ (hK_inv _ hk) _ hk2)
    have hprod : h2 * h⁻¹ * x * (k⁻¹ * k2) = y := by
      rw [hx, hy]
      group
    rwa [hprod] at this
  exact List.inj_on_of_nodup_map hindex hyG hxG (le_antisymm hyx hxy)

/-- Witness of C28: the cyclic group of order four with its subgroup of order two and
the trivial invariant subgroup; the double cosets are {0, 2} and {1, 3}, and the
generators written are the images of 2 and of 3. -/
theorem make_suborbit_generators_one_per_double_coset_witness :
    make_suborbit_generators C4.index C4.copy_apply (0 : ZMod 4) C4.trivial C4.group
        C4.subgroup [] = [2, 3] ∧
      make_suborbit_generators C4.index C4.copy_apply (0 : ZMod 4) C4.trivial C4.group
        C4.subgroup [] =
        [] ++ (C4.group.filter (greatest_in_double_coset C4.index C4.subgroup
          C4.trivial)).map (fun g => C4.copy_apply g 0) :=
  ⟨by decide,
   (make_suborbit_generators_one_per_double_coset C4.index C4.copy_apply (0 : ZMod 4)
      C4.group C4.subgroup C4.trivial [] (by decide) (by decide) (by decide) (by decide)
      (by decide) (by decide) (by decide) (by decide) (by decide) (by decide)).2.1⟩

end MakeSubOrbitGeneratorsTheorems

end CASM

namespace CASM
namespace Monte

section SaveConfigsTheorems

variable {Config DB : Type} [DecidableEq Config]

end SaveConfigsTheorems

end Monte
end CASM
